import Mathlib

/-!
# Verification of the Keyper vault subsystem

Shallow embedding of the Keyper envelope-encryption vault:

* `src/crypto/encoding.ts` — base64 / UTF-8 codecs, `encryptString`, `decryptString`;
* `SecureVault` — the vault core (DEK lifecycle, lock/unlock/encrypt/decrypt,
  auto-lock, event notification);
* `VaultManager` / `VaultStorage` — first-run detection over external storage.

Byte strings are `List Nat` with every element `< 256`.  JS strings are lists of
Unicode scalar values (`List Nat` with `ValidChar` elements).

The WebCrypto primitives (`crypto.subtle` AES-GCM, `crypto.getRandomValues`) and
the Argon2/PBKDF2 KDFs are platform primitives, not repository code.  They are
modelled symbolically, as ideal primitives:

* `deriveKey` is an ideal (collision-free) KDF: an injective pairing of the
  UTF-8 passphrase bytes and the salt;
* AES-GCM is an ideal AEAD: the ciphertext is an injective, authenticated
  encoding of (key, nonce, plaintext); decryption succeeds exactly on genuine
  encryptions under the same key and nonce, and any single-byte modification of
  a produced ciphertext is detected;
* random values (`salt`, `iv`, DEK bytes) are passed as explicit parameters.

Everything else (base64, UTF-8, blob structure, error mapping, the vault state
machine) is translated directly from the TypeScript source.
-/

/-- Byte strings: lists of naturals, each `< 256` where it matters. -/
abbrev Bytes := List Nat

/-- A JS string, as its list of Unicode scalar values. -/
abbrev JSString := List Nat

/-- A Unicode scalar value: in range and not a surrogate. -/
def ValidChar (c : Nat) : Prop := c < 0x110000 ∧ (c < 0xD800 ∨ 0xDFFF < c)

instance (c : Nat) : Decidable (ValidChar c) := by
  unfold ValidChar; infer_instance

/-! ## Self-delimiting natural-number encoding

Used by the ideal-primitive models (`deriveKey`, AES-GCM) to build injective
byte encodings of tuples: a natural is written in little-endian base-255 digits
(each `< 255`) followed by the marker byte `255`. -/

/-- Little-endian base-255 digits of `n` (each digit `< 255`). -/
def natToBytes (n : Nat) : List Nat :=
  if n = 0 then [] else (n % 255) :: natToBytes (n / 255)
decreasing_by exact Nat.div_lt_self (Nat.pos_of_ne_zero (by assumption)) (by omega)

/-- Inverse of `natToBytes`. -/
def bytesToNat (l : List Nat) : Nat :=
  l.foldr (fun d acc => acc * 255 + d) 0

theorem natToBytes_lt (n : Nat) : ∀ d ∈ natToBytes n, d < 255 := by
  induction n using Nat.strong_induction_on with
  | _ n ih =>
    rw [natToBytes]
    split
    · simp
    · intro d hd
      simp only [List.mem_cons] at hd
      rcases hd with h | h
      · omega
      · exact ih (n / 255) (Nat.div_lt_self (Nat.pos_of_ne_zero (by assumption)) (by omega)) d h

theorem bytesToNat_natToBytes (n : Nat) : bytesToNat (natToBytes n) = n := by
  induction n using Nat.strong_induction_on with
  | _ n ih =>
    rw [natToBytes]
    split
    · simp [bytesToNat]; omega
    · rename_i hn
      have h := ih (n / 255) (Nat.div_lt_self (Nat.pos_of_ne_zero hn) (by omega))
      simp only [bytesToNat, List.foldr_cons] at h ⊢
      rw [h]
      omega

/-- `encodeLen n` = digits of `n` followed by the `255` marker. -/
def encodeLen (n : Nat) : List Nat := natToBytes n ++ [255]

theorem span_digits (p : Nat → Bool) (a : List Nat) (b : List Nat)
    (ha : ∀ x ∈ a, p x = true) :
    (a ++ b).span p = (a ++ (b.takeWhile p), b.dropWhile p) := by
  induction a with
  | nil => simp [List.span_eq_take_drop]
  | cons x xs ih =>
    have hx : p x = true := ha x (by simp)
    have ihs := ih (fun y hy => ha y (by simp [hy]))
    simp only [List.span_eq_take_drop] at ihs ⊢
    simp [List.takeWhile_cons, List.dropWhile_cons, hx, Prod.ext_iff] at ihs ⊢
    exact ⟨ihs.1, ihs.2⟩

/-- Splitting `encodeLen n ++ rest` at the first marker byte recovers `n` and `rest`. -/
theorem span_encodeLen (n : Nat) (rest : List Nat) :
    (encodeLen n ++ rest).span (fun b => b ≠ 255) =
      (natToBytes n, 255 :: rest) := by
  have h := span_digits (fun b => decide (b ≠ 255)) (natToBytes n) (255 :: rest)
    (fun x hx => by simpa using Nat.ne_of_lt (natToBytes_lt n x hx))
  simpa [encodeLen, List.takeWhile, List.dropWhile] using h

/-! ## Injective triple encoding (ideal-primitive plumbing) -/

/-- Injective byte encoding of a `(key, iv, plaintext)` triple:
length-prefixed key, length-prefixed iv, then the plaintext as the tail. -/
def encodePayload (key iv pt : Bytes) : Bytes :=
  encodeLen key.length ++ key ++ (encodeLen iv.length ++ iv ++ pt)

/-- Parser inverse of `encodePayload`. -/
def decodePayload (l : Bytes) : Option (Bytes × Bytes × Bytes) :=
  match l.span (fun b => b ≠ 255) with
  | (d1, 255 :: r1) =>
    let n1 := bytesToNat d1
    if n1 ≤ r1.length then
      match (r1.drop n1).span (fun b => b ≠ 255) with
      | (d2, 255 :: r3) =>
        let n2 := bytesToNat d2
        if n2 ≤ r3.length then some (r1.take n1, r3.take n2, r3.drop n2)
        else none
      | _ => none
    else none
  | _ => none

theorem decodePayload_encodePayload (key iv pt : Bytes) :
    decodePayload (encodePayload key iv pt) = some (key, iv, pt) := by
  unfold decodePayload encodePayload
  rw [List.append_assoc, span_encodeLen]
  simp only [bytesToNat_natToBytes]
  have h1 : key.length ≤ (key ++ (encodeLen iv.length ++ iv ++ pt)).length := by
    simp
  rw [if_pos h1]
  rw [List.take_left, List.drop_left, List.append_assoc, span_encodeLen]
  simp only [bytesToNat_natToBytes]
  have h2 : iv.length ≤ (iv ++ pt).length := by simp
  rw [if_pos h2, List.take_left, List.drop_left]

theorem encodePayload_inj {k1 i1 p1 k2 i2 p2 : Bytes}
    (h : encodePayload k1 i1 p1 = encodePayload k2 i2 p2) :
    k1 = k2 ∧ i1 = i2 ∧ p1 = p2 := by
  have h1 := decodePayload_encodePayload k1 i1 p1
  have h2 := decodePayload_encodePayload k2 i2 p2
  rw [h, h2] at h1
  simpa using h1.symm

/-- Bytes of `encodeLen` are always `< 256`. -/
theorem encodeLen_lt (n : Nat) : ∀ b ∈ encodeLen n, b < 256 := by
  intro b hb
  simp only [encodeLen, List.mem_append, List.mem_singleton] at hb
  rcases hb with h | h
  · exact Nat.lt_of_lt_of_le (natToBytes_lt n b h) (by omega)
  · omega

theorem encodePayload_lt {key iv pt : Bytes}
    (hk : ∀ b ∈ key, b < 256) (hi : ∀ b ∈ iv, b < 256) (hp : ∀ b ∈ pt, b < 256) :
    ∀ b ∈ encodePayload key iv pt, b < 256 := by
  intro b hb
  simp only [encodePayload, List.mem_append] at hb
  rcases hb with (h | h) | (h | h) | h
  · exact encodeLen_lt _ b h
  · exact hk b h
  · exact encodeLen_lt _ b h
  · exact hi b h
  · exact hp b h

/-! ## Ideal AES-GCM model

`crypto.subtle.encrypt`/`decrypt` with AES-GCM are platform primitives.
Modelled as an ideal AEAD: the ciphertext is the injective encoding of
(key, iv, plaintext) followed by a one-byte checksum (modelling the 128-bit
GCM authentication tag: in the ideal model any single-byte modification is
detected with certainty).  Decryption succeeds exactly on well-formed
encryptions whose recorded key and iv match the ones supplied. -/

/-- Ideal AES-GCM encryption. -/
def aesGcmEncrypt (key iv pt : Bytes) : Bytes :=
  let e := encodePayload key iv pt
  e ++ [e.sum % 256]

/-- Ideal AES-GCM decryption: check the authentication byte, decode the
payload, check key and iv.  `none` models the `OperationError` WebCrypto
throws on authentication failure. -/
def aesGcmDecrypt (key iv ct : Bytes) : Option Bytes :=
  match ct.getLast? with
  | none => none
  | some tag =>
    let payload := ct.dropLast
    if tag = payload.sum % 256 then
      match decodePayload payload with
      | some (k, i, p) => if k = key ∧ i = iv then some p else none
      | none => none
    else none

theorem aesGcmDecrypt_encrypt (key iv pt : Bytes) :
    aesGcmDecrypt key iv (aesGcmEncrypt key iv pt) = some pt := by
  unfold aesGcmEncrypt aesGcmDecrypt
  simp [List.getLast?_append, List.dropLast_append_of_ne_nil,
    decodePayload_encodePayload]

theorem aesGcmEncrypt_lt {key iv pt : Bytes}
    (hk : ∀ b ∈ key, b < 256) (hi : ∀ b ∈ iv, b < 256) (hp : ∀ b ∈ pt, b < 256) :
    ∀ b ∈ aesGcmEncrypt key iv pt, b < 256 := by
  intro b hb
  simp only [aesGcmEncrypt, List.mem_append, List.mem_singleton] at hb
  rcases hb with h | h
  · exact encodePayload_lt hk hi hp b h
  · omega

theorem sum_set_add (l : List Nat) (t : Nat) :
    ∀ j (hj : j < l.length), (l.set j t).sum + l.get ⟨j, hj⟩ = l.sum + t := by
  induction l with
  | nil => intro j hj; simp at hj
  | cons a tl ih =>
    intro j hj
    cases j with
    | zero => simp [List.set]; omega
    | succ j =>
      have hj' : j < tl.length := by simpa using hj
      have h := ih j hj'
      simp only [List.set, List.sum_cons, List.get] at h ⊢
      omega

/-- Ideal authentication: changing any single byte of a produced ciphertext to
a different byte value makes decryption fail, under every key and iv. -/
theorem aesGcmDecrypt_tamper (key iv pt key' iv' : Bytes)
    (hk : ∀ b ∈ key, b < 256) (hi : ∀ b ∈ iv, b < 256) (hp : ∀ b ∈ pt, b < 256)
    (j t : Nat) (hj : j < (aesGcmEncrypt key iv pt).length)
    (ht : t ≠ (aesGcmEncrypt key iv pt).get ⟨j, hj⟩) (ht2 : t < 256) :
    aesGcmDecrypt key' iv' ((aesGcmEncrypt key iv pt).set j t) = none := by
  unfold aesGcmEncrypt at *
  set e := encodePayload key iv pt with he
  have hlen : (e ++ [e.sum % 256]).length = e.length + 1 := by simp
  rw [List.set_append]
  by_cases hcase : j < e.length
  · rw [if_pos hcase]
    have hget : (e ++ [e.sum % 256]).get ⟨j, hj⟩ = e.get ⟨j, hcase⟩ := by
      simp only [List.get_eq_getElem]
      exact List.getElem_append_left hcase
    rw [hget] at ht
    have hsum := sum_set_add e t j hcase
    have hej : e.get ⟨j, hcase⟩ < 256 := by
      apply encodePayload_lt hk hi hp
      simp only [← he, List.get_eq_getElem]
      exact List.getElem_mem hcase
    unfold aesGcmDecrypt
    rw [List.getLast?_concat, List.dropLast_concat]
    have hne : e.sum % 256 ≠ (e.set j t).sum % 256 := by omega
    simp [hne]
  · rw [if_neg hcase]
    have hje : j = e.length := by
      simp only [hlen] at hj; omega
    have hget : (e ++ [e.sum % 256]).get ⟨j, hj⟩ = e.sum % 256 := by
      simp only [List.get_eq_getElem]
      rw [List.getElem_append_right (by omega)]
      simp [hje]
    rw [hget] at ht
    have hset : [e.sum % 256].set (j - e.length) t = [t] := by
      simp [hje]
    rw [hset]
    unfold aesGcmDecrypt
    rw [List.getLast?_concat, List.dropLast_concat]
    simp [ht]

/-- Decryption under a wrong key fails on genuine ciphertexts. -/
theorem aesGcmDecrypt_wrong_key (key iv pt : Bytes) (key' iv' : Bytes)
    (h : key' ≠ key ∨ iv' ≠ iv) :
    aesGcmDecrypt key' iv' (aesGcmEncrypt key iv pt) = none := by
  unfold aesGcmEncrypt aesGcmDecrypt
  rw [List.getLast?_concat, List.dropLast_concat]
  simp only [if_pos rfl, decodePayload_encodePayload]
  have : ¬(key = key' ∧ iv = iv') := by
    rintro ⟨h1, h2⟩
    rcases h with h | h
    · exact h h1.symm
    · exact h h2.symm
  simp [this]

/-- Genuine ciphertexts determine their iv: equal ciphertexts force equal ivs. -/
theorem aesGcmEncrypt_inj {k1 i1 p1 k2 i2 p2 : Bytes}
    (h : aesGcmEncrypt k1 i1 p1 = aesGcmEncrypt k2 i2 p2) :
    k1 = k2 ∧ i1 = i2 ∧ p1 = p2 := by
  have h1 := aesGcmDecrypt_encrypt k1 i1 p1
  have h2 := aesGcmDecrypt_encrypt k2 i2 p2
  unfold aesGcmEncrypt aesGcmDecrypt at h1 h2
  rw [List.getLast?_concat, List.dropLast_concat] at h1 h2
  simp only [if_pos rfl, decodePayload_encodePayload] at h1 h2
  have hpay : encodePayload k1 i1 p1 = encodePayload k2 i2 p2 := by
    unfold aesGcmEncrypt at h
    have := congrArg List.dropLast h
    simpa [List.dropLast_concat] using this
  exact encodePayload_inj hpay

/-! ## UTF-8 (model of `TextEncoder` / `TextDecoder`)

`utf8Encode` is the standard UTF-8 encoding of a sequence of Unicode scalar
values, exactly what `new TextEncoder().encode` produces on a well-formed JS
string.  `utf8Decode` is a strict decoder; `TextDecoder` in its default
non-fatal mode never throws, so the fallible decoder is wrapped by
`utf8DecodeLossy` below. -/

/-- UTF-8 encoding of one Unicode scalar value, 1-4 bytes. -/
def utf8EncodeChar (c : Nat) : Bytes :=
  if c < 0x80 then [c]
  else if c < 0x800 then [0xC0 + c / 64, 0x80 + c % 64]
  else if c < 0x10000 then [0xE0 + c / 4096, 0x80 + c / 64 % 64, 0x80 + c % 64]
  else [0xF0 + c / 262144, 0x80 + c / 4096 % 64, 0x80 + c / 64 % 64, 0x80 + c % 64]

/-- UTF-8 encoding of a string (model of `new TextEncoder().encode(str)`). -/
def utf8Encode (s : JSString) : Bytes := s.flatMap utf8EncodeChar

/-- Decode a 2-byte UTF-8 sequence with lead byte `b`. -/
def utf8Dec2 (b : Nat) : Bytes → Option (Nat × Bytes)
  | b2 :: rest2 =>
    if 0x80 ≤ b2 ∧ b2 < 0xC0 then
      let c := (b - 0xC0) * 64 + (b2 - 0x80)
      if c < 0x80 then none else some (c, rest2)
    else none
  | [] => none

/-- Decode a 3-byte UTF-8 sequence with lead byte `b`. -/
def utf8Dec3 (b : Nat) : Bytes → Option (Nat × Bytes)
  | b2 :: b3 :: rest3 =>
    if (0x80 ≤ b2 ∧ b2 < 0xC0) ∧ (0x80 ≤ b3 ∧ b3 < 0xC0) then
      let c := (b - 0xE0) * 4096 + (b2 - 0x80) * 64 + (b3 - 0x80)
      if c < 0x800 ∨ (0xD800 ≤ c ∧ c ≤ 0xDFFF) then none
      else some (c, rest3)
    else none
  | _ => none

/-- Decode a 4-byte UTF-8 sequence with lead byte `b`. -/
def utf8Dec4 (b : Nat) : Bytes → Option (Nat × Bytes)
  | b2 :: b3 :: b4 :: rest4 =>
    if (0x80 ≤ b2 ∧ b2 < 0xC0) ∧ (0x80 ≤ b3 ∧ b3 < 0xC0) ∧ (0x80 ≤ b4 ∧ b4 < 0xC0) then
      let c := (b - 0xF0) * 262144 + (b2 - 0x80) * 4096 + (b3 - 0x80) * 64 + (b4 - 0x80)
      if c < 0x10000 ∨ 0x110000 ≤ c then none
      else some (c, rest4)
    else none
  | _ => none

/-- Decode one UTF-8-encoded scalar value: lead byte `b`, remaining input
`rest`; returns the scalar value and the unconsumed input.  Rejects stray
continuation bytes, overlong forms, surrogates and out-of-range code points. -/
def utf8DecodeStep (b : Nat) (rest : Bytes) : Option (Nat × Bytes) :=
  if b < 0x80 then some (b, rest)
  else if b < 0xC2 then none
  else if b < 0xE0 then utf8Dec2 b rest
  else if b < 0xF0 then utf8Dec3 b rest
  else if b < 0xF5 then utf8Dec4 b rest
  else none

theorem utf8Dec2_length {b c : Nat} {rest r : Bytes}
    (h : utf8Dec2 b rest = some (c, r)) : r.length ≤ rest.length := by
  match rest with
  | [] => simp [utf8Dec2] at h
  | b2 :: rest2 =>
    simp only [utf8Dec2] at h
    split at h
    · split at h
      · simp at h
      · simp only [Option.some.injEq, Prod.mk.injEq] at h
        obtain ⟨-, rfl⟩ := h
        simp only [List.length_cons]
        omega
    · simp at h

theorem utf8Dec3_length {b c : Nat} {rest r : Bytes}
    (h : utf8Dec3 b rest = some (c, r)) : r.length ≤ rest.length := by
  match rest with
  | [] => simp [utf8Dec3] at h
  | [b2] => simp [utf8Dec3] at h
  | b2 :: b3 :: rest3 =>
    simp only [utf8Dec3] at h
    split at h
    · split at h
      · simp at h
      · simp only [Option.some.injEq, Prod.mk.injEq] at h
        obtain ⟨-, rfl⟩ := h
        simp only [List.length_cons]
        omega
    · simp at h

theorem utf8Dec4_length {b c : Nat} {rest r : Bytes}
    (h : utf8Dec4 b rest = some (c, r)) : r.length ≤ rest.length := by
  match rest with
  | [] => simp [utf8Dec4] at h
  | [b2] => simp [utf8Dec4] at h
  | [b2, b3] => simp [utf8Dec4] at h
  | b2 :: b3 :: b4 :: rest4 =>
    simp only [utf8Dec4] at h
    split at h
    · split at h
      · simp at h
      · simp only [Option.some.injEq, Prod.mk.injEq] at h
        obtain ⟨-, rfl⟩ := h
        simp only [List.length_cons]
        omega
    · simp at h

theorem utf8DecodeStep_length {b : Nat} {rest : Bytes} {c : Nat} {r : Bytes}
    (h : utf8DecodeStep b rest = some (c, r)) : r.length ≤ rest.length := by
  unfold utf8DecodeStep at h
  split_ifs at h
  · simp only [Option.some.injEq, Prod.mk.injEq] at h
    obtain ⟨-, rfl⟩ := h
    exact le_refl _
  · exact utf8Dec2_length h
  · exact utf8Dec3_length h
  · exact utf8Dec4_length h

/-- Strict UTF-8 decoder. -/
def utf8Decode (l : Bytes) : Option JSString :=
  match l with
  | [] => some []
  | b :: rest =>
    match h : utf8DecodeStep b rest with
    | some (c, rest2) => (utf8Decode rest2).map (c :: ·)
    | none => none
termination_by l.length
decreasing_by
  have := utf8DecodeStep_length h
  simp only [List.length_cons]
  omega

theorem utf8Decode_cons_some {b c : Nat} {rest r2 : Bytes}
    (hst : utf8DecodeStep b rest = some (c, r2)) :
    utf8Decode (b :: rest) = (utf8Decode r2).map (c :: ·) := by
  rw [utf8Decode.eq_def]
  split <;> simp_all
  split <;> simp_all

theorem utf8Decode_cons_none {b : Nat} {rest : Bytes}
    (hst : utf8DecodeStep b rest = none) :
    utf8Decode (b :: rest) = none := by
  rw [utf8Decode.eq_def]
  split <;> simp_all
  split <;> simp_all

theorem utf8Decode_encodeChar (c : Nat) (hc : ValidChar c) (rest : Bytes) :
    utf8Decode (utf8EncodeChar c ++ rest) = (utf8Decode rest).map (c :: ·) := by
  obtain ⟨hlt, hsur⟩ := hc
  by_cases h1 : c < 0x80
  · have henc : utf8EncodeChar c = [c] := by rw [utf8EncodeChar, if_pos h1]
    have hst : utf8DecodeStep c rest = some (c, rest) := by
      unfold utf8DecodeStep; rw [if_pos h1]
    rw [henc, List.cons_append, List.nil_append, utf8Decode_cons_some hst]
  · by_cases h2 : c < 0x800
    · have henc : utf8EncodeChar c = [0xC0 + c / 64, 0x80 + c % 64] := by
        rw [utf8EncodeChar, if_neg h1, if_pos h2]
      have hval : (0xC0 + c / 64 - 0xC0) * 64 + (0x80 + c % 64 - 0x80) = c := by omega
      have hst : utf8DecodeStep (0xC0 + c / 64) ((0x80 + c % 64) :: rest) = some (c, rest) := by
        unfold utf8DecodeStep
        rw [if_neg (by omega), if_neg (by omega), if_pos (by omega)]
        simp only [utf8Dec2]
        rw [if_pos (by omega), hval, if_neg (by omega)]
      rw [henc, List.cons_append, List.cons_append, List.nil_append,
        utf8Decode_cons_some hst]
    · by_cases h3 : c < 0x10000
      · have henc : utf8EncodeChar c =
            [0xE0 + c / 4096, 0x80 + c / 64 % 64, 0x80 + c % 64] := by
          rw [utf8EncodeChar, if_neg h1, if_neg h2, if_pos h3]
        have hval : (0xE0 + c / 4096 - 0xE0) * 4096 + (0x80 + c / 64 % 64 - 0x80) * 64 +
            (0x80 + c % 64 - 0x80) = c := by omega
        have hst : utf8DecodeStep (0xE0 + c / 4096)
            ((0x80 + c / 64 % 64) :: (0x80 + c % 64) :: rest) = some (c, rest) := by
          unfold utf8DecodeStep
          rw [if_neg (by omega), if_neg (by omega), if_neg (by omega), if_pos (by omega)]
          simp only [utf8Dec3]
          rw [if_pos (by omega), hval, if_neg (by omega)]
        rw [henc, List.cons_append, List.cons_append, List.cons_append, List.nil_append,
          utf8Decode_cons_some hst]
      · have henc : utf8EncodeChar c =
            [0xF0 + c / 262144, 0x80 + c / 4096 % 64, 0x80 + c / 64 % 64, 0x80 + c % 64] := by
          rw [utf8EncodeChar, if_neg h1, if_neg h2, if_neg h3]
        have hval : (0xF0 + c / 262144 - 0xF0) * 262144 + (0x80 + c / 4096 % 64 - 0x80) * 4096 +
            (0x80 + c / 64 % 64 - 0x80) * 64 + (0x80 + c % 64 - 0x80) = c := by omega
        have hst : utf8DecodeStep (0xF0 + c / 262144)
            ((0x80 + c / 4096 % 64) :: (0x80 + c / 64 % 64) :: (0x80 + c % 64) :: rest) =
              some (c, rest) := by
          unfold utf8DecodeStep
          rw [if_neg (by omega), if_neg (by omega), if_neg (by omega), if_neg (by omega),
            if_pos (by omega)]
          simp only [utf8Dec4]
          rw [if_pos (by omega), hval, if_neg (by omega)]
        rw [henc, List.cons_append, List.cons_append, List.cons_append, List.cons_append,
          List.nil_append, utf8Decode_cons_some hst]

theorem utf8Decode_utf8Encode (s : JSString) (hs : ∀ c ∈ s, ValidChar c) :
    utf8Decode (utf8Encode s) = some s := by
  induction s with
  | nil =>
    rw [show utf8Encode [] = [] from rfl, utf8Decode.eq_def]
  | cons c tl ih =>
    have hc : ValidChar c := hs c (by simp)
    have htl : ∀ x ∈ tl, ValidChar x := fun x hx => hs x (by simp [hx])
    have : utf8Encode (c :: tl) = utf8EncodeChar c ++ utf8Encode tl := by
      simp [utf8Encode]
    rw [this, utf8Decode_encodeChar c hc, ih htl]
    rfl

theorem utf8Encode_inj {s1 s2 : JSString}
    (h1 : ∀ c ∈ s1, ValidChar c) (h2 : ∀ c ∈ s2, ValidChar c)
    (h : utf8Encode s1 = utf8Encode s2) : s1 = s2 := by
  have e1 := utf8Decode_utf8Encode s1 h1
  have e2 := utf8Decode_utf8Encode s2 h2
  rw [h, e2] at e1
  simpa using e1.symm

theorem utf8EncodeChar_lt (c : Nat) (hc : ValidChar c) :
    ∀ b ∈ utf8EncodeChar c, b < 256 := by
  obtain ⟨hlt, -⟩ := hc
  intro b hb
  unfold utf8EncodeChar at hb
  by_cases h1 : c < 0x80
  · simp [h1] at hb; omega
  · by_cases h2 : c < 0x800
    · simp [h1, h2] at hb; omega
    · by_cases h3 : c < 0x10000
      · simp [h1, h2, h3] at hb
        rcases hb with h | h | h <;> omega
      · simp [h1, h2, h3] at hb
        rcases hb with h | h | h | h <;> omega

theorem utf8Encode_lt (s : JSString) (hs : ∀ c ∈ s, ValidChar c) :
    ∀ b ∈ utf8Encode s, b < 256 := by
  intro b hb
  simp only [utf8Encode, List.mem_flatMap] at hb
  obtain ⟨c, hc, hb⟩ := hb
  exact utf8EncodeChar_lt c (hs c hc) b hb

/-- Model of `new TextDecoder().decode(buffer)`: the default `TextDecoder` is
non-fatal and never throws; on ill-formed input it substitutes replacement
characters.  All reachable uses in this development decode well-formed UTF-8,
so the ill-formed branch is a stand-in replacement value. -/
def utf8DecodeLossy (bs : Bytes) : JSString :=
  (utf8Decode bs).getD [0xFFFD]

/-! ## Base64 (model of `bufToBase64` / `base64ToBuf` from `encoding.ts`)

`bufToBase64` turns each byte into a binary-string character and calls the
platform `btoa`; `base64ToBuf` calls `atob` and reads the char codes back.
The byte↔char loops are the identity on byte lists, so the pair is modelled
as standard base64 over byte lists, producing the char codes of the base64
text. -/

/-- The base64 alphabet: sextet value to ASCII code. -/
def b64Char (n : Nat) : Nat :=
  if n < 26 then 65 + n
  else if n < 52 then 97 + (n - 26)
  else if n < 62 then 48 + (n - 52)
  else if n = 62 then 43
  else 47

/-- ASCII code back to sextet value; `none` off the alphabet (`=` included). -/
def b64DecChar (c : Nat) : Option Nat :=
  if 65 ≤ c ∧ c ≤ 90 then some (c - 65)
  else if 97 ≤ c ∧ c ≤ 122 then some (c - 97 + 26)
  else if 48 ≤ c ∧ c ≤ 57 then some (c - 48 + 52)
  else if c = 43 then some 62
  else if c = 47 then some 63
  else none

theorem b64DecChar_b64Char : ∀ n < 64, b64DecChar (b64Char n) = some n := by decide

theorem b64Char_ne_61 : ∀ n < 64, b64Char n ≠ 61 := by decide

/-- Base64 encoding of a byte list (the char codes of `btoa`'s output). -/
def b64Encode : Bytes → List Nat
  | [] => []
  | [a] => [b64Char (a / 4), b64Char (a % 4 * 16), 61, 61]
  | [a, b] => [b64Char (a / 4), b64Char (a % 4 * 16 + b / 16), b64Char (b % 16 * 4), 61]
  | a :: b :: c :: rest =>
    b64Char (a / 4) :: b64Char (a % 4 * 16 + b / 16) :: b64Char (b % 16 * 4 + c / 64) ::
      b64Char (c % 64) :: b64Encode rest

/-- Base64 decoding (model of `atob` + char-code loop); `none` models the
`InvalidCharacterError` that `atob` throws on malformed input. -/
def b64Decode : List Nat → Option Bytes
  | [] => some []
  | c1 :: c2 :: c3 :: c4 :: rest =>
    if c3 = 61 ∧ c4 = 61 ∧ rest = [] then
      match b64DecChar c1, b64DecChar c2 with
      | some s1, some s2 => some [s1 * 4 + s2 / 16]
      | _, _ => none
    else if c4 = 61 ∧ rest = [] then
      match b64DecChar c1, b64DecChar c2, b64DecChar c3 with
      | some s1, some s2, some s3 => some [s1 * 4 + s2 / 16, s2 % 16 * 16 + s3 / 4]
      | _, _, _ => none
    else
      match b64DecChar c1, b64DecChar c2, b64DecChar c3, b64DecChar c4 with
      | some s1, some s2, some s3, some s4 =>
        (b64Decode rest).map
          (fun bs => (s1 * 4 + s2 / 16) :: (s2 % 16 * 16 + s3 / 4) :: (s3 % 4 * 64 + s4) :: bs)
      | _, _, _, _ => none
  | _ => none

theorem b64Decode_b64Encode (l : Bytes) (hl : ∀ b ∈ l, b < 256) :
    b64Decode (b64Encode l) = some l := by
  induction l using b64Encode.induct with
  | case1 => simp [b64Encode, b64Decode]
  | case2 a =>
    have ha : a < 256 := hl a (by simp)
    simp only [b64Encode, b64Decode]
    split_ifs with h1
    · rw [b64DecChar_b64Char (a / 4) (by omega), b64DecChar_b64Char (a % 4 * 16) (by omega)]
      simp only [Option.some.injEq, List.cons.injEq, and_true]
      omega
    · exact absurd ⟨trivial, trivial, trivial⟩ h1
    · exact absurd ⟨trivial, trivial, trivial⟩ h1
  | case3 a b =>
    have ha : a < 256 := hl a (by simp)
    have hb : b < 256 := hl b (by simp)
    have h61 : b64Char (b % 16 * 4) ≠ 61 := b64Char_ne_61 _ (by omega)
    simp only [b64Encode, b64Decode]
    split_ifs with h1 h2
    · exact absurd h1.1 h61
    · rw [b64DecChar_b64Char (a / 4) (by omega),
        b64DecChar_b64Char (a % 4 * 16 + b / 16) (by omega),
        b64DecChar_b64Char (b % 16 * 4) (by omega)]
      simp only [Option.some.injEq, List.cons.injEq, and_true]
      constructor <;> omega
    · exact absurd ⟨trivial, trivial⟩ h2
  | case4 a b c rest ih =>
    have ha : a < 256 := hl a (by simp)
    have hb : b < 256 := hl b (by simp)
    have hc : c < 256 := hl c (by simp)
    have h61a : b64Char (b % 16 * 4 + c / 64) ≠ 61 := b64Char_ne_61 _ (by omega)
    have h61b : b64Char (c % 64) ≠ 61 := b64Char_ne_61 _ (by omega)
    simp only [b64Encode, b64Decode]
    split_ifs with h1 h2
    · exact absurd h1.1 h61a
    · exact absurd h2.1 h61b
    · rw [b64DecChar_b64Char (a / 4) (by omega),
        b64DecChar_b64Char (a % 4 * 16 + b / 16) (by omega),
        b64DecChar_b64Char (b % 16 * 4 + c / 64) (by omega),
        b64DecChar_b64Char (c % 64) (by omega)]
      rw [ih (fun x hx => hl x (by simp [hx]))]
      simp only [Option.map_some', Option.some.injEq, List.cons.injEq]
      refine ⟨by omega, by omega, by omega, trivial⟩

theorem b64Encode_inj {l1 l2 : Bytes}
    (h1 : ∀ b ∈ l1, b < 256) (h2 : ∀ b ∈ l2, b < 256)
    (h : b64Encode l1 = b64Encode l2) : l1 = l2 := by
  have e1 := b64Decode_b64Encode l1 h1
  have e2 := b64Decode_b64Encode l2 h2
  rw [h, e2] at e1
  simpa using e1.symm

/-! ## Crypto module types (`crypto/types.ts`) -/

/-- Supported KDF algorithms (`KdfName`). -/
inductive KdfName
  | argon2id
  | pbkdf2
deriving DecidableEq, Repr

/-- Error taxonomy (`CryptoErrorType`). -/
inductive CryptoErrorType
  | VAULT_LOCKED
  | VAULT_NOT_INITIALIZED
  | INVALID_PASSPHRASE
  | UNSUPPORTED_VERSION
  | DECRYPTION_FAILED
  | ENCRYPTION_FAILED
  | KEY_DERIVATION_FAILED
  | INVALID_BLOB_FORMAT
deriving DecidableEq, Repr

/-- Encrypted secret blob, version 1 (`SecretBlobV1`): `salt`, `iv`, `ct`
hold base64 text as char-code lists. -/
structure SecretBlobV1 where
  v : Nat
  kdf : KdfName
  salt : List Nat
  iv : List Nat
  ct : List Nat
deriving DecidableEq, Repr

/-- Ideal KDF modelling `deriveKey` (Argon2id with PBKDF2 fallback, both
platform primitives): a collision-free combination of the UTF-8 passphrase
bytes and the salt.  Deterministic in (passphrase, salt), injective in each
argument.  The `KdfName` tag the real `deriveKey` also returns depends on
runtime Argon2 availability and is threaded separately as a parameter. -/
def deriveKey (pass : JSString) (salt : Bytes) : Bytes :=
  encodePayload (utf8Encode pass) salt []

theorem deriveKey_inj {p1 p2 : JSString} {s1 s2 : Bytes}
    (hv1 : ∀ c ∈ p1, ValidChar c) (hv2 : ∀ c ∈ p2, ValidChar c)
    (h : deriveKey p1 s1 = deriveKey p2 s2) : p1 = p2 ∧ s1 = s2 := by
  obtain ⟨he, hs, -⟩ := encodePayload_inj h
  exact ⟨utf8Encode_inj hv1 hv2 he, hs⟩

theorem deriveKey_lt {pass : JSString} {salt : Bytes}
    (hp : ∀ c ∈ pass, ValidChar c) (hs : ∀ b ∈ salt, b < 256) :
    ∀ b ∈ deriveKey pass salt, b < 256 :=
  encodePayload_lt (utf8Encode_lt pass hp) hs (by simp)

/-! ## `encryptString` / `decryptString` (`crypto/crypto.ts`)

The random salt and IV that `encryptString` draws from
`crypto.getRandomValues` are explicit parameters, as is the `KdfName` the
runtime's `deriveKey` reports. -/

/-- Model of `encryptString`: derive a key from (passphrase, fresh salt),
AES-GCM-encrypt the UTF-8 plaintext under a fresh IV, base64 the parts. -/
def encryptString (kdf : KdfName) (pass : JSString) (salt iv : Bytes)
    (plaintext : JSString) : SecretBlobV1 :=
  let key := deriveKey pass salt
  let ct := aesGcmEncrypt key iv (utf8Encode plaintext)
  { v := 1
    kdf := kdf
    salt := b64Encode salt
    iv := b64Encode iv
    ct := b64Encode ct }

/-- Model of `decryptString`.  Error mapping follows the source: a version
other than 1 raises `UNSUPPORTED_VERSION`; an `OperationError` from AES-GCM
(authentication failure) raises `INVALID_PASSPHRASE`; any other failure
(e.g. `atob` rejecting malformed base64) raises `DECRYPTION_FAILED`. -/
def decryptString (pass : JSString) (blob : SecretBlobV1) :
    Except CryptoErrorType JSString :=
  if blob.v ≠ 1 then .error .UNSUPPORTED_VERSION
  else
    match b64Decode blob.salt, b64Decode blob.iv, b64Decode blob.ct with
    | some salt, some iv, some ct =>
      match aesGcmDecrypt (deriveKey pass salt) iv ct with
      | some ptBytes => .ok (utf8DecodeLossy ptBytes)
      | none => .error .INVALID_PASSPHRASE
    | _, _, _ => .error .DECRYPTION_FAILED

/-! ## SecureVault (`services/SecureVault.ts`)

State machine with DEK (in-memory key bytes), wrapped DEK, auto-lock timer
flag, and activity timestamp.  Randomness (DEK bytes, salts, IVs) and the
current time are explicit parameters.  Each operation returns its result, the
successor state, and the list of events handed to `notifyListeners` (which
delivers every emitted event to every registered listener). -/

/-- Vault state-change events (`VaultEvent`). -/
inductive VaultEvent
  | locked
  | unlocked
  | autoLocked
deriving DecidableEq, Repr

/-- Wrapped DEK structure stored on the server (`WrappedDEK`); `salt`, `iv`,
`ct` hold base64 text as char-code lists. -/
structure WrappedDEK where
  v : Nat
  kdf : KdfName
  salt : List Nat
  iv : List Nat
  ct : List Nat
deriving DecidableEq, Repr

/-- Errors escaping vault operations: a typed `CryptoError`, or a raw
platform exception rethrown unchanged (`OperationError` from
`crypto.subtle.decrypt`, `InvalidCharacterError` from `atob`). -/
inductive VaultError
  | cryptoError (t : CryptoErrorType)
  | rawError
deriving DecidableEq, Repr

/-- The `SecureVault` instance fields. -/
structure VaultState where
  dek : Option Bytes
  wrappedDEK : Option WrappedDEK
  autoLockTimeoutMs : Int
  autoLockTimer : Bool
  lastActivity : Option Nat
deriving DecidableEq, Repr

/-- Freshly constructed `SecureVault` (default 15-minute timeout, no timer). -/
def initialVault : VaultState :=
  { dek := none
    wrappedDEK := none
    autoLockTimeoutMs := 15 * 60 * 1000
    autoLockTimer := false
    lastActivity := none }

namespace SecureVault

/-- `resetAutoLockTimer`: clear any pending timer, arm one iff timeout > 0. -/
def resetAutoLockTimer (s : VaultState) : VaultState :=
  { s with autoLockTimer := decide (0 < s.autoLockTimeoutMs) }

/-- `updateActivity`: refresh the activity timestamp and re-arm the timer. -/
def updateActivity (now : Nat) (s : VaultState) : VaultState :=
  resetAutoLockTimer { s with lastActivity := some now }

/-- `initializeWithWrappedDEK`: store an existing wrapped DEK. -/
def initializeWithWrappedDEK (w : WrappedDEK) (s : VaultState) : VaultState :=
  { s with wrappedDEK := some w }

/-- `createNewVault`: validate the passphrase length, wrap a fresh DEK under
a KEK derived from a fresh salt, retain the DEK in memory, emit `unlocked`. -/
def createNewVault (kdf : KdfName) (pass : JSString) (dekBytes salt iv : Bytes)
    (now : Nat) (s : VaultState) :
    Except VaultError WrappedDEK × VaultState × List VaultEvent :=
  if pass.length < 8 then
    (.error (.cryptoError .INVALID_PASSPHRASE), s, [])
  else
    let kek := deriveKey pass salt
    let wrappedCt := aesGcmEncrypt kek iv dekBytes
    let w : WrappedDEK :=
      { v := 1
        kdf := kdf
        salt := b64Encode salt
        iv := b64Encode iv
        ct := b64Encode wrappedCt }
    (.ok w, updateActivity now { s with wrappedDEK := some w, dek := some dekBytes },
      [.unlocked])

/-- `unlock`: requires a wrapped DEK and a passphrase of length ≥ 8; derives
the KEK from the stored salt and unwraps the DEK.  AES-GCM authentication
failure surfaces as `INVALID_PASSPHRASE`; an `atob` failure on a malformed
record propagates as a raw error. -/
def unlock (pass : JSString) (now : Nat) (s : VaultState) :
    Except VaultError Unit × VaultState × List VaultEvent :=
  match s.wrappedDEK with
  | none => (.error (.cryptoError .VAULT_NOT_INITIALIZED), s, [])
  | some w =>
    if pass.length < 8 then
      (.error (.cryptoError .INVALID_PASSPHRASE), s, [])
    else
      match b64Decode w.salt, b64Decode w.iv, b64Decode w.ct with
      | some salt, some iv, some ct =>
        match aesGcmDecrypt (deriveKey pass salt) iv ct with
        | some dekBytes =>
          (.ok (), updateActivity now { s with dek := some dekBytes }, [.unlocked])
        | none => (.error (.cryptoError .INVALID_PASSPHRASE), s, [])
      | _, _, _ => (.error .rawError, s, [])

/-- `isUnlocked`. -/
def isUnlocked (s : VaultState) : Bool := s.dek.isSome

/-- `lock`: drop the DEK, cancel the timer, clear activity, emit `locked` —
but only if a DEK is present; otherwise do nothing. -/
def lock (s : VaultState) : VaultState × List VaultEvent :=
  match s.dek with
  | some _ =>
    ({ s with dek := none, autoLockTimer := false, lastActivity := none }, [.locked])
  | none => (s, [])

/-- `encrypt`: fail with `VAULT_LOCKED` when no DEK is in memory; otherwise
refresh activity and seal the plaintext under the DEK.  The blob's `kdf` and
`salt` fields are copied from the stored wrapped DEK (`?.` with `||`
fallbacks). -/
def encrypt (pt : JSString) (iv : Bytes) (now : Nat) (s : VaultState) :
    Except VaultError SecretBlobV1 × VaultState × List VaultEvent :=
  match s.dek with
  | none => (.error (.cryptoError .VAULT_LOCKED), s, [])
  | some dek =>
    let ct := aesGcmEncrypt dek iv (utf8Encode pt)
    let blob : SecretBlobV1 :=
      { v := 1
        kdf := match s.wrappedDEK with | some w => w.kdf | none => .pbkdf2
        salt := match s.wrappedDEK with | some w => w.salt | none => []
        iv := b64Encode iv
        ct := b64Encode ct }
    (.ok blob, updateActivity now s, [])

/-- `decrypt`: fail with `VAULT_LOCKED` when no DEK is in memory; otherwise
refresh activity and open the blob's `iv`/`ct` directly under the DEK (no
version check, `salt` and `kdf` ignored).  Failures from `atob` or AES-GCM
are rethrown raw. -/
def decrypt (blob : SecretBlobV1) (now : Nat) (s : VaultState) :
    Except VaultError JSString × VaultState × List VaultEvent :=
  match s.dek with
  | none => (.error (.cryptoError .VAULT_LOCKED), s, [])
  | some dek =>
    let s2 := updateActivity now s
    match b64Decode blob.iv, b64Decode blob.ct with
    | some iv, some ct =>
      match aesGcmDecrypt dek iv ct with
      | some pt => (.ok (utf8DecodeLossy pt), s2, [])
      | none => (.error .rawError, s2, [])
    | _, _ => (.error .rawError, s2, [])

/-- `getWrappedDEK`. -/
def getWrappedDEK (s : VaultState) : Option WrappedDEK := s.wrappedDEK

/-- `testPassphrase`: attempt the same derive+unwrap as `unlock` without
storing anything; every failure (including `atob` throwing) is caught and
returns `false`.  The method touches no instance state. -/
def testPassphrase (pass : JSString) (s : VaultState) : Bool :=
  match s.wrappedDEK with
  | none => false
  | some w =>
    match b64Decode w.salt, b64Decode w.iv, b64Decode w.ct with
    | some salt, some iv, some ct =>
      (aesGcmDecrypt (deriveKey pass salt) iv ct).isSome
    | _, _, _ => false

/-- The auto-lock timer callback: `this.lock()` followed by
`this.notifyListeners('auto-locked')`. -/
def autoLockFire (s : VaultState) : VaultState × List VaultEvent :=
  let p := lock s
  (p.1, p.2 ++ [.autoLocked])

/-- `setAutoLockTimeout`: store the new timeout; if unlocked, re-arm now. -/
def setAutoLockTimeout (t : Int) (s : VaultState) : VaultState :=
  let s2 := { s with autoLockTimeoutMs := t }
  if s2.dek.isSome then resetAutoLockTimer s2 else s2

end SecureVault

/-- States reachable from a fresh `SecureVault` by any sequence of operations
(with arbitrary parameters, randomness and timing; the auto-lock timer may
fire at any point it is armed). -/
inductive Reachable : VaultState → Prop
  | init : Reachable initialVault
  | initializeWithWrappedDEK {s} (w : WrappedDEK) :
      Reachable s → Reachable (SecureVault.initializeWithWrappedDEK w s)
  | createNewVault {s} kdf pass dekBytes salt iv now :
      Reachable s → Reachable (SecureVault.createNewVault kdf pass dekBytes salt iv now s).2.1
  | unlock {s} pass now :
      Reachable s → Reachable (SecureVault.unlock pass now s).2.1
  | lock {s} :
      Reachable s → Reachable (SecureVault.lock s).1
  | encrypt {s} pt iv now :
      Reachable s → Reachable (SecureVault.encrypt pt iv now s).2.1
  | decrypt {s} blob now :
      Reachable s → Reachable (SecureVault.decrypt blob now s).2.1
  | autoLockFire {s} :
      Reachable s → Reachable (SecureVault.autoLockFire s).1
  | setAutoLockTimeout {s} (t : Int) :
      Reachable s → Reachable (SecureVault.setAutoLockTimeout t s)

/-! ## Byte-flip tampering helpers -/

theorem set_ne_of_get_ne {l : List Nat} {j t : Nat} (hj : j < l.length)
    (ht : t ≠ l.get ⟨j, hj⟩) : l.set j t ≠ l := by
  intro h
  have h0 := congrArg (fun x : List Nat => x[j]?) h
  simp only [List.getElem?_set_self', List.getElem?_eq_getElem hj] at h0
  simp at h0
  apply ht
  simp only [List.get_eq_getElem, Fin.getElem_fin]
  exact h0

theorem set_lt_of_lt {l : List Nat} {j t : Nat} (hl : ∀ b ∈ l, b < 256)
    (ht : t < 256) : ∀ b ∈ l.set j t, b < 256 := by
  intro b hb
  rcases List.mem_or_eq_of_mem_set hb with h | h
  · exact hl b h
  · omega

/-! # Claims -/

/-- **C1.** For every plaintext string P (empty, long, arbitrary Unicode
scalar values) and every passphrase, decrypting with the same passphrase the
blob produced by encryption returns exactly P:
`decryptString(passphrase, encryptString(passphrase, P)) == P`.
The fresh random salt and IV drawn inside `encryptString` are the explicit
`salt`/`iv` parameters. -/
theorem decryptString_encryptString_roundtrip
    (kdf : KdfName) (pass P : JSString) (salt iv : Bytes)
    (hpass : ∀ c ∈ pass, ValidChar c) (hP : ∀ c ∈ P, ValidChar c)
    (hsalt : ∀ b ∈ salt, b < 256) (hiv : ∀ b ∈ iv, b < 256) :
    decryptString pass (encryptString kdf pass salt iv P) = .ok P := by
  have hct : ∀ b ∈ aesGcmEncrypt (deriveKey pass salt) iv (utf8Encode P), b < 256 :=
    aesGcmEncrypt_lt (deriveKey_lt hpass hsalt) hiv (utf8Encode_lt P hP)
  simp only [encryptString, decryptString]
  rw [if_neg (by simp)]
  rw [b64Decode_b64Encode salt hsalt, b64Decode_b64Encode iv hiv,
    b64Decode_b64Encode _ hct]
  simp only [aesGcmDecrypt_encrypt]
  rw [show utf8DecodeLossy (utf8Encode P) = P by
    rw [utf8DecodeLossy, utf8Decode_utf8Encode P hP]; rfl]

/-- Witness for C1: a concrete passphrase and a plaintext mixing ASCII, a
2-byte, a 3-byte and a 4-byte character round-trip. -/
theorem decryptString_encryptString_roundtrip_witness :
    decryptString [112, 97, 115, 115, 119, 111, 114, 100]
        (encryptString .argon2id [112, 97, 115, 115, 119, 111, 114, 100]
          [0, 1, 2, 3, 4, 5, 6, 7, 8, 9, 10, 11, 12, 13, 14, 15]
          [20, 21, 22, 23, 24, 25, 26, 27, 28, 29, 30, 31]
          [104, 233, 8364, 128512]) =
      .ok [104, 233, 8364, 128512] :=
  decryptString_encryptString_roundtrip .argon2id
    [112, 97, 115, 115, 119, 111, 114, 100] [104, 233, 8364, 128512]
    [0, 1, 2, 3, 4, 5, 6, 7, 8, 9, 10, 11, 12, 13, 14, 15]
    [20, 21, 22, 23, 24, 25, 26, 27, 28, 29, 30, 31]
    (by decide) (by decide) (by decide) (by decide)

/-- **C3.** With no DEK in memory (`Locked`/`Uninitialized`), `encrypt` and
`decrypt` always fail with `VAULT_LOCKED` and leave the state unchanged (and
emit nothing); `lock()` on such a state is an error-free no-op. -/
theorem locked_vault_ops (s : VaultState) (h : s.dek = none)
    (pt : JSString) (iv : Bytes) (blob : SecretBlobV1) (now : Nat) :
    SecureVault.encrypt pt iv now s =
        (.error (.cryptoError .VAULT_LOCKED), s, []) ∧
      SecureVault.decrypt blob now s =
        (.error (.cryptoError .VAULT_LOCKED), s, []) ∧
      SecureVault.lock s = (s, []) := by
  refine ⟨?_, ?_, ?_⟩ <;>
    simp [SecureVault.encrypt, SecureVault.decrypt, SecureVault.lock, h]

/-- Witness for C3 at the freshly constructed vault. -/
theorem locked_vault_ops_witness :
    SecureVault.encrypt [65] [0] 0 initialVault =
        (.error (.cryptoError .VAULT_LOCKED), initialVault, []) ∧
      SecureVault.decrypt ⟨1, .pbkdf2, [], [], []⟩ 0 initialVault =
        (.error (.cryptoError .VAULT_LOCKED), initialVault, []) ∧
      SecureVault.lock initialVault = (initialVault, []) :=
  locked_vault_ops initialVault (by decide) [65] [0] ⟨1, .pbkdf2, [], [], []⟩ 0

/-- **C10** (implicit invariant). In every reachable vault state, a DEK in
memory implies a wrapped-DEK record is present; every operation preserves
this (`testPassphrase` does not touch the state at all in the model). -/
theorem reachable_dek_implies_wrapped {s : VaultState} (hs : Reachable s) :
    s.dek.isSome → s.wrappedDEK.isSome := by
  induction hs with
  | init => simp [initialVault]
  | initializeWithWrappedDEK w _ ih =>
    simp [SecureVault.initializeWithWrappedDEK]
  | @createNewVault s kdf pass dekBytes salt iv now _ ih =>
    simp only [SecureVault.createNewVault]
    split
    · exact ih
    · simp [SecureVault.updateActivity, SecureVault.resetAutoLockTimer]
  | @unlock s pass now _ ih =>
    simp only [SecureVault.unlock]
    rcases hw : s.wrappedDEK with - | w
    · simpa using ih
    · repeat' split
      all_goals simp_all [SecureVault.updateActivity, SecureVault.resetAutoLockTimer]
  | @lock s _ ih =>
    simp only [SecureVault.lock]
    repeat' split
    all_goals simp_all
  | @encrypt s pt iv now _ ih =>
    simp only [SecureVault.encrypt]
    repeat' split
    all_goals simp_all [SecureVault.updateActivity, SecureVault.resetAutoLockTimer]
  | @decrypt s blob now _ ih =>
    simp only [SecureVault.decrypt]
    repeat' split
    all_goals simp_all [SecureVault.updateActivity, SecureVault.resetAutoLockTimer]
  | @autoLockFire s _ ih =>
    simp only [SecureVault.autoLockFire, SecureVault.lock]
    repeat' split
    all_goals simp_all
  | @setAutoLockTimeout s t _ ih =>
    simp only [SecureVault.setAutoLockTimeout]
    split
    · simpa [SecureVault.resetAutoLockTimer] using ih
    · simpa using ih

/-- Witness for C10: the invariant, with both hypotheses discharged, at the
unlocked state reached by creating a vault from scratch. -/
theorem reachable_dek_implies_wrapped_witness :
    ((SecureVault.createNewVault .pbkdf2 [112, 97, 115, 115, 119, 111, 114, 100]
        [9, 9] [1, 2] [3, 4] 0 initialVault).2.1).wrappedDEK.isSome :=
  reachable_dek_implies_wrapped
    (Reachable.createNewVault .pbkdf2 [112, 97, 115, 115, 119, 111, 114, 100]
      [9, 9] [1, 2] [3, 4] 0 Reachable.init) rfl

/-- **C2.** `createNewVault` with a passphrase of ≥ 8 characters succeeds and
returns a `WrappedDEK` with `v = 1`; `unlock` with the same passphrase on a
vault freshly initialized with a loaded copy of that record succeeds, recovers
exactly the DEK generated at creation, and the resulting vault decrypts any
blob encrypted before the reload back to its original plaintext.  Randomness
(DEK bytes, salt, IVs) and timestamps are explicit parameters. -/
theorem createVault_reload_unlock_decrypt
    (kdf : KdfName) (pass P : JSString) (dekBytes salt iv ivE : Bytes)
    (t1 t2 t3 t4 : Nat)
    (hlen : 8 ≤ pass.length)
    (hpass : ∀ c ∈ pass, ValidChar c) (hP : ∀ c ∈ P, ValidChar c)
    (hdek : ∀ b ∈ dekBytes, b < 256) (hsalt : ∀ b ∈ salt, b < 256)
    (hiv : ∀ b ∈ iv, b < 256) (hivE : ∀ b ∈ ivE, b < 256) :
    (SecureVault.createNewVault kdf pass dekBytes salt iv t1 initialVault).1.isOk ∧
    ∀ w, (SecureVault.createNewVault kdf pass dekBytes salt iv t1 initialVault).1 = .ok w →
      w.v = 1 ∧
      (SecureVault.unlock pass t2 (SecureVault.initializeWithWrappedDEK w initialVault)).1
          = .ok () ∧
      (SecureVault.unlock pass t2 (SecureVault.initializeWithWrappedDEK w initialVault)).2.1.dek
          = some dekBytes ∧
      (SecureVault.unlock pass t2 (SecureVault.initializeWithWrappedDEK w initialVault)).2.2
          = [.unlocked] ∧
      ∀ blob, (SecureVault.encrypt P ivE t3
          (SecureVault.createNewVault kdf pass dekBytes salt iv t1 initialVault).2.1).1
            = .ok blob →
        (SecureVault.decrypt blob t4
          (SecureVault.unlock pass t2
            (SecureVault.initializeWithWrappedDEK w initialVault)).2.1).1 = .ok P := by
  have hkek : ∀ b ∈ deriveKey pass salt, b < 256 := deriveKey_lt hpass hsalt
  have hwrapct : ∀ b ∈ aesGcmEncrypt (deriveKey pass salt) iv dekBytes, b < 256 :=
    aesGcmEncrypt_lt hkek hiv hdek
  have hblobct : ∀ b ∈ aesGcmEncrypt dekBytes ivE (utf8Encode P), b < 256 :=
    aesGcmEncrypt_lt hdek hivE (utf8Encode_lt P hP)
  have hcr : SecureVault.createNewVault kdf pass dekBytes salt iv t1 initialVault =
      (.ok ⟨1, kdf, b64Encode salt, b64Encode iv,
          b64Encode (aesGcmEncrypt (deriveKey pass salt) iv dekBytes)⟩,
        SecureVault.updateActivity t1
          { initialVault with
              wrappedDEK := some ⟨1, kdf, b64Encode salt, b64Encode iv,
                b64Encode (aesGcmEncrypt (deriveKey pass salt) iv dekBytes)⟩,
              dek := some dekBytes },
        [.unlocked]) := by
    rw [SecureVault.createNewVault, if_neg (by omega)]
  refine ⟨by rw [hcr]; rfl, ?_⟩
  intro w hw
  rw [hcr] at hw
  simp only [Except.ok.injEq] at hw
  subst hw
  have hunlock : SecureVault.unlock pass t2
      (SecureVault.initializeWithWrappedDEK
        ⟨1, kdf, b64Encode salt, b64Encode iv,
          b64Encode (aesGcmEncrypt (deriveKey pass salt) iv dekBytes)⟩ initialVault) =
      (.ok (), SecureVault.updateActivity t2
        { initialVault with
            wrappedDEK := some ⟨1, kdf, b64Encode salt, b64Encode iv,
              b64Encode (aesGcmEncrypt (deriveKey pass salt) iv dekBytes)⟩,
            dek := some dekBytes },
        [.unlocked]) := by
    rw [SecureVault.unlock]
    simp only [SecureVault.initializeWithWrappedDEK]
    rw [if_neg (by omega)]
    rw [b64Decode_b64Encode salt hsalt, b64Decode_b64Encode iv hiv,
      b64Decode_b64Encode _ hwrapct]
    simp only [aesGcmDecrypt_encrypt]
  refine ⟨rfl, by rw [hunlock], ?_, by rw [hunlock], ?_⟩
  · rw [hunlock]
    simp [SecureVault.updateActivity, SecureVault.resetAutoLockTimer]
  · intro blob hblob
    rw [hcr] at hblob
    have henc : (SecureVault.encrypt P ivE t3
        (SecureVault.updateActivity t1
          { initialVault with
              wrappedDEK := some ⟨1, kdf, b64Encode salt, b64Encode iv,
                b64Encode (aesGcmEncrypt (deriveKey pass salt) iv dekBytes)⟩,
              dek := some dekBytes })).1 =
        .ok ⟨1, kdf, b64Encode salt, b64Encode ivE,
          b64Encode (aesGcmEncrypt dekBytes ivE (utf8Encode P))⟩ := by
      rw [SecureVault.encrypt]
      simp [SecureVault.updateActivity, SecureVault.resetAutoLockTimer]
    rw [henc] at hblob
    simp only [Except.ok.injEq] at hblob
    subst hblob
    rw [hunlock]
    rw [SecureVault.decrypt]
    simp only [SecureVault.updateActivity, SecureVault.resetAutoLockTimer]
    rw [b64Decode_b64Encode ivE hivE, b64Decode_b64Encode _ hblobct]
    simp only [aesGcmDecrypt_encrypt]
    rw [show utf8DecodeLossy (utf8Encode P) = P by
      rw [utf8DecodeLossy, utf8Decode_utf8Encode P hP]; rfl]

/-- Witness for C2 at concrete passphrase, plaintext and randomness. -/
theorem createVault_reload_unlock_decrypt_witness :
    (SecureVault.createNewVault .argon2id [112, 97, 115, 115, 119, 111, 114, 100]
        [1, 2, 3] [5, 6] [7, 8] 0 initialVault).1.isOk ∧
    ∀ w, (SecureVault.createNewVault .argon2id [112, 97, 115, 115, 119, 111, 114, 100]
        [1, 2, 3] [5, 6] [7, 8] 0 initialVault).1 = .ok w →
      w.v = 1 ∧
      (SecureVault.unlock [112, 97, 115, 115, 119, 111, 114, 100] 1
          (SecureVault.initializeWithWrappedDEK w initialVault)).1 = .ok () ∧
      (SecureVault.unlock [112, 97, 115, 115, 119, 111, 114, 100] 1
          (SecureVault.initializeWithWrappedDEK w initialVault)).2.1.dek = some [1, 2, 3] ∧
      (SecureVault.unlock [112, 97, 115, 115, 119, 111, 114, 100] 1
          (SecureVault.initializeWithWrappedDEK w initialVault)).2.2 = [.unlocked] ∧
      ∀ blob, (SecureVault.encrypt [104, 105] [9, 10] 2
          (SecureVault.createNewVault .argon2id [112, 97, 115, 115, 119, 111, 114, 100]
            [1, 2, 3] [5, 6] [7, 8] 0 initialVault).2.1).1 = .ok blob →
        (SecureVault.decrypt blob 3
          (SecureVault.unlock [112, 97, 115, 115, 119, 111, 114, 100] 1
            (SecureVault.initializeWithWrappedDEK w initialVault)).2.1).1 = .ok [104, 105] :=
  createVault_reload_unlock_decrypt .argon2id
    [112, 97, 115, 115, 119, 111, 114, 100] [104, 105] [1, 2, 3] [5, 6] [7, 8] [9, 10]
    0 1 2 3 (by decide) (by decide) (by decide) (by decide) (by decide) (by decide)
    (by decide)

/-- **C4.** On a vault holding the wrap of a DEK under `pass`, every
authentication failure surfaces as the single error `INVALID_PASSPHRASE`,
with the state returned untouched: unlocking with a wrong passphrase `pw`
(whether it fails the length check or the unwrap), and unlocking with the
correct passphrase after any single-byte corruption of the wrapped record's
underlying ct, salt or iv bytes.  `testPassphrase` with the wrong passphrase
returns `false`; it reads the state and writes none of it (it is modelled as
a pure function of the state). -/
theorem unlock_auth_failure_single_error
    (kdf : KdfName) (pass pw : JSString) (dekBytes salt iv : Bytes) (now : Nat)
    (s : VaultState)
    (hpass : ∀ c ∈ pass, ValidChar c) (hpw : ∀ c ∈ pw, ValidChar c)
    (hne : pw ≠ pass)
    (hdek : ∀ b ∈ dekBytes, b < 256) (hsalt : ∀ b ∈ salt, b < 256)
    (hiv : ∀ b ∈ iv, b < 256)
    (hw : s.wrappedDEK = some ⟨1, kdf, b64Encode salt, b64Encode iv,
        b64Encode (aesGcmEncrypt (deriveKey pass salt) iv dekBytes)⟩) :
    SecureVault.unlock pw now s = (.error (.cryptoError .INVALID_PASSPHRASE), s, []) ∧
    SecureVault.testPassphrase pw s = false ∧
    (∀ j t, ∀ hj : j < (aesGcmEncrypt (deriveKey pass salt) iv dekBytes).length,
      t < 256 → t ≠ (aesGcmEncrypt (deriveKey pass salt) iv dekBytes).get ⟨j, hj⟩ →
      ∀ s2 : VaultState, s2.wrappedDEK = some ⟨1, kdf, b64Encode salt, b64Encode iv,
          b64Encode ((aesGcmEncrypt (deriveKey pass salt) iv dekBytes).set j t)⟩ →
        SecureVault.unlock pass now s2 =
          (.error (.cryptoError .INVALID_PASSPHRASE), s2, [])) ∧
    (∀ j t, ∀ hj : j < salt.length, t < 256 → t ≠ salt.get ⟨j, hj⟩ →
      ∀ s2 : VaultState, s2.wrappedDEK = some ⟨1, kdf, b64Encode (salt.set j t),
          b64Encode iv, b64Encode (aesGcmEncrypt (deriveKey pass salt) iv dekBytes)⟩ →
        SecureVault.unlock pass now s2 =
          (.error (.cryptoError .INVALID_PASSPHRASE), s2, [])) ∧
    (∀ j t, ∀ hj : j < iv.length, t < 256 → t ≠ iv.get ⟨j, hj⟩ →
      ∀ s2 : VaultState, s2.wrappedDEK = some ⟨1, kdf, b64Encode salt,
          b64Encode (iv.set j t),
          b64Encode (aesGcmEncrypt (deriveKey pass salt) iv dekBytes)⟩ →
        SecureVault.unlock pass now s2 =
          (.error (.cryptoError .INVALID_PASSPHRASE), s2, [])) := by
  have hkek : ∀ b ∈ deriveKey pass salt, b < 256 := deriveKey_lt hpass hsalt
  have hct : ∀ b ∈ aesGcmEncrypt (deriveKey pass salt) iv dekBytes, b < 256 :=
    aesGcmEncrypt_lt hkek hiv hdek
  have hkne : deriveKey pw salt ≠ deriveKey pass salt := fun h =>
    hne (deriveKey_inj hpw hpass h).1
  refine ⟨?_, ?_, ?_, ?_, ?_⟩
  · rw [SecureVault.unlock]
    simp only [hw]
    by_cases hl : pw.length < 8
    · rw [if_pos hl]
    · rw [if_neg hl]
      rw [b64Decode_b64Encode salt hsalt, b64Decode_b64Encode iv hiv,
        b64Decode_b64Encode _ hct]
      simp only [aesGcmDecrypt_wrong_key (deriveKey pass salt) iv dekBytes
        (deriveKey pw salt) iv (Or.inl hkne)]
  · rw [SecureVault.testPassphrase]
    simp only [hw]
    rw [b64Decode_b64Encode salt hsalt, b64Decode_b64Encode iv hiv,
      b64Decode_b64Encode _ hct]
    simp only [aesGcmDecrypt_wrong_key (deriveKey pass salt) iv dekBytes
      (deriveKey pw salt) iv (Or.inl hkne), Option.isSome_none]
  · intro j t hj ht hne2 s2 hw2
    rw [SecureVault.unlock]
    simp only [hw2]
    by_cases hl : pass.length < 8
    · rw [if_pos hl]
    · rw [if_neg hl]
      rw [b64Decode_b64Encode salt hsalt, b64Decode_b64Encode iv hiv,
        b64Decode_b64Encode _ (set_lt_of_lt hct ht)]
      simp only [aesGcmDecrypt_tamper (deriveKey pass salt) iv dekBytes
        (deriveKey pass salt) iv hkek hiv hdek j t hj hne2 ht]
  · intro j t hj ht hne2 s2 hw2
    have hsne : salt.set j t ≠ salt := set_ne_of_get_ne hj hne2
    have hkne2 : deriveKey pass (salt.set j t) ≠ deriveKey pass salt := fun h =>
      hsne (deriveKey_inj hpass hpass h).2
    rw [SecureVault.unlock]
    simp only [hw2]
    by_cases hl : pass.length < 8
    · rw [if_pos hl]
    · rw [if_neg hl]
      rw [b64Decode_b64Encode _ (set_lt_of_lt hsalt ht), b64Decode_b64Encode iv hiv,
        b64Decode_b64Encode _ hct]
      simp only [aesGcmDecrypt_wrong_key (deriveKey pass salt) iv dekBytes
        (deriveKey pass (salt.set j t)) iv (Or.inl hkne2)]
  · intro j t hj ht hne2 s2 hw2
    have hivne : iv.set j t ≠ iv := set_ne_of_get_ne hj hne2
    rw [SecureVault.unlock]
    simp only [hw2]
    by_cases hl : pass.length < 8
    · rw [if_pos hl]
    · rw [if_neg hl]
      rw [b64Decode_b64Encode salt hsalt, b64Decode_b64Encode _ (set_lt_of_lt hiv ht),
        b64Decode_b64Encode _ hct]
      simp only [aesGcmDecrypt_wrong_key (deriveKey pass salt) iv dekBytes
        (deriveKey pass salt) (iv.set j t) (Or.inr hivne)]

/-- Witness for C4 at a concrete wrapped record, wrong passphrase and state. -/
theorem unlock_auth_failure_single_error_witness :
    SecureVault.unlock [119, 114, 111, 110, 103, 112, 97, 115, 115] 0
        { initialVault with wrappedDEK := some ⟨1, .pbkdf2,
            b64Encode [5, 6], b64Encode [7, 8],
            b64Encode (aesGcmEncrypt
              (deriveKey [112, 97, 115, 115, 119, 111, 114, 100] [5, 6]) [7, 8] [1, 2, 3])⟩ } =
      (.error (.cryptoError .INVALID_PASSPHRASE),
        { initialVault with wrappedDEK := some ⟨1, .pbkdf2,
            b64Encode [5, 6], b64Encode [7, 8],
            b64Encode (aesGcmEncrypt
              (deriveKey [112, 97, 115, 115, 119, 111, 114, 100] [5, 6]) [7, 8] [1, 2, 3])⟩ },
        []) ∧
    SecureVault.testPassphrase [119, 114, 111, 110, 103, 112, 97, 115, 115]
        { initialVault with wrappedDEK := some ⟨1, .pbkdf2,
            b64Encode [5, 6], b64Encode [7, 8],
            b64Encode (aesGcmEncrypt
              (deriveKey [112, 97, 115, 115, 119, 111, 114, 100] [5, 6]) [7, 8] [1, 2, 3])⟩ }
      = false ∧
    (∀ j t, ∀ hj : j < (aesGcmEncrypt
        (deriveKey [112, 97, 115, 115, 119, 111, 114, 100] [5, 6]) [7, 8] [1, 2, 3]).length,
      t < 256 → t ≠ (aesGcmEncrypt
        (deriveKey [112, 97, 115, 115, 119, 111, 114, 100] [5, 6]) [7, 8] [1, 2, 3]).get ⟨j, hj⟩ →
      ∀ s2 : VaultState, s2.wrappedDEK = some ⟨1, .pbkdf2, b64Encode [5, 6], b64Encode [7, 8],
          b64Encode ((aesGcmEncrypt
            (deriveKey [112, 97, 115, 115, 119, 111, 114, 100] [5, 6]) [7, 8] [1, 2, 3]).set j t)⟩ →
        SecureVault.unlock [112, 97, 115, 115, 119, 111, 114, 100] 0 s2 =
          (.error (.cryptoError .INVALID_PASSPHRASE), s2, [])) ∧
    (∀ j t, ∀ hj : j < ([5, 6] : Bytes).length, t < 256 → t ≠ ([5, 6] : Bytes).get ⟨j, hj⟩ →
      ∀ s2 : VaultState, s2.wrappedDEK = some ⟨1, .pbkdf2, b64Encode (([5, 6] : Bytes).set j t),
          b64Encode [7, 8],
          b64Encode (aesGcmEncrypt
            (deriveKey [112, 97, 115, 115, 119, 111, 114, 100] [5, 6]) [7, 8] [1, 2, 3])⟩ →
        SecureVault.unlock [112, 97, 115, 115, 119, 111, 114, 100] 0 s2 =
          (.error (.cryptoError .INVALID_PASSPHRASE), s2, [])) ∧
    (∀ j t, ∀ hj : j < ([7, 8] : Bytes).length, t < 256 → t ≠ ([7, 8] : Bytes).get ⟨j, hj⟩ →
      ∀ s2 : VaultState, s2.wrappedDEK = some ⟨1, .pbkdf2, b64Encode [5, 6],
          b64Encode (([7, 8] : Bytes).set j t),
          b64Encode (aesGcmEncrypt
            (deriveKey [112, 97, 115, 115, 119, 111, 114, 100] [5, 6]) [7, 8] [1, 2, 3])⟩ →
        SecureVault.unlock [112, 97, 115, 115, 119, 111, 114, 100] 0 s2 =
          (.error (.cryptoError .INVALID_PASSPHRASE), s2, [])) :=
  unlock_auth_failure_single_error .pbkdf2
    [112, 97, 115, 115, 119, 111, 114, 100] [119, 114, 111, 110, 103, 112, 97, 115, 115]
    [1, 2, 3] [5, 6] [7, 8] 0
    { initialVault with wrappedDEK := some ⟨1, .pbkdf2,
        b64Encode [5, 6], b64Encode [7, 8],
        b64Encode (aesGcmEncrypt
          (deriveKey [112, 97, 115, 115, 119, 111, 114, 100] [5, 6]) [7, 8] [1, 2, 3])⟩ }
    (by decide) (by decide) (by decide) (by decide) (by decide) (by decide) rfl

/-! ## Shared tamper/roundtrip lemmas for the cipher and vault decryptors -/

theorem decryptString_tamper_ct (kdf : KdfName) (pass P : JSString) (salt iv : Bytes)
    (hpass : ∀ c ∈ pass, ValidChar c) (hP : ∀ c ∈ P, ValidChar c)
    (hsalt : ∀ b ∈ salt, b < 256) (hiv : ∀ b ∈ iv, b < 256)
    (j t : Nat) (hj : j < (aesGcmEncrypt (deriveKey pass salt) iv (utf8Encode P)).length)
    (ht : t < 256)
    (hne : t ≠ (aesGcmEncrypt (deriveKey pass salt) iv (utf8Encode P)).get ⟨j, hj⟩) :
    decryptString pass ⟨1, kdf, b64Encode salt, b64Encode iv,
        b64Encode ((aesGcmEncrypt (deriveKey pass salt) iv (utf8Encode P)).set j t)⟩ =
      .error .INVALID_PASSPHRASE := by
  have hct : ∀ b ∈ aesGcmEncrypt (deriveKey pass salt) iv (utf8Encode P), b < 256 :=
    aesGcmEncrypt_lt (deriveKey_lt hpass hsalt) hiv (utf8Encode_lt P hP)
  rw [decryptString]
  rw [if_neg (by simp)]
  rw [b64Decode_b64Encode salt hsalt, b64Decode_b64Encode iv hiv,
    b64Decode_b64Encode _ (set_lt_of_lt hct ht)]
  simp only [aesGcmDecrypt_tamper (deriveKey pass salt) iv (utf8Encode P)
    (deriveKey pass salt) iv (deriveKey_lt hpass hsalt) hiv (utf8Encode_lt P hP)
    j t hj hne ht]

theorem decryptString_tamper_iv (kdf : KdfName) (pass P : JSString) (salt iv : Bytes)
    (hpass : ∀ c ∈ pass, ValidChar c) (hP : ∀ c ∈ P, ValidChar c)
    (hsalt : ∀ b ∈ salt, b < 256) (hiv : ∀ b ∈ iv, b < 256)
    (j t : Nat) (hj : j < iv.length) (ht : t < 256) (hne : t ≠ iv.get ⟨j, hj⟩) :
    decryptString pass ⟨1, kdf, b64Encode salt, b64Encode (iv.set j t),
        b64Encode (aesGcmEncrypt (deriveKey pass salt) iv (utf8Encode P))⟩ =
      .error .INVALID_PASSPHRASE := by
  have hct : ∀ b ∈ aesGcmEncrypt (deriveKey pass salt) iv (utf8Encode P), b < 256 :=
    aesGcmEncrypt_lt (deriveKey_lt hpass hsalt) hiv (utf8Encode_lt P hP)
  rw [decryptString]
  rw [if_neg (by simp)]
  rw [b64Decode_b64Encode salt hsalt, b64Decode_b64Encode _ (set_lt_of_lt hiv ht),
    b64Decode_b64Encode _ hct]
  simp only [aesGcmDecrypt_wrong_key (deriveKey pass salt) iv (utf8Encode P)
    (deriveKey pass salt) (iv.set j t) (Or.inr (set_ne_of_get_ne hj hne))]

theorem decryptString_tamper_salt (kdf : KdfName) (pass P : JSString) (salt iv : Bytes)
    (hpass : ∀ c ∈ pass, ValidChar c) (hP : ∀ c ∈ P, ValidChar c)
    (hsalt : ∀ b ∈ salt, b < 256) (hiv : ∀ b ∈ iv, b < 256)
    (j t : Nat) (hj : j < salt.length) (ht : t < 256) (hne : t ≠ salt.get ⟨j, hj⟩) :
    decryptString pass ⟨1, kdf, b64Encode (salt.set j t), b64Encode iv,
        b64Encode (aesGcmEncrypt (deriveKey pass salt) iv (utf8Encode P))⟩ =
      .error .INVALID_PASSPHRASE := by
  have hct : ∀ b ∈ aesGcmEncrypt (deriveKey pass salt) iv (utf8Encode P), b < 256 :=
    aesGcmEncrypt_lt (deriveKey_lt hpass hsalt) hiv (utf8Encode_lt P hP)
  have hkne : deriveKey pass (salt.set j t) ≠ deriveKey pass salt := fun h =>
    set_ne_of_get_ne hj hne (deriveKey_inj hpass hpass h).2
  rw [decryptString]
  rw [if_neg (by simp)]
  rw [b64Decode_b64Encode _ (set_lt_of_lt hsalt ht), b64Decode_b64Encode iv hiv,
    b64Decode_b64Encode _ hct]
  simp only [aesGcmDecrypt_wrong_key (deriveKey pass salt) iv (utf8Encode P)
    (deriveKey pass (salt.set j t)) iv (Or.inl hkne)]

/-- The vault's `decrypt` opens a blob whose `iv`/`ct` are a genuine sealing
under the in-memory DEK — regardless of the blob's `v`, `kdf`, `salt`. -/
theorem vaultDecrypt_ok (v0 : Nat) (kdfX : KdfName) (saltF : List Nat)
    (dekB ivE : Bytes) (P : JSString) (now : Nat) (s : VaultState)
    (hdekS : s.dek = some dekB)
    (hP : ∀ c ∈ P, ValidChar c) (hdek : ∀ b ∈ dekB, b < 256)
    (hivE : ∀ b ∈ ivE, b < 256) :
    (SecureVault.decrypt ⟨v0, kdfX, saltF, b64Encode ivE,
        b64Encode (aesGcmEncrypt dekB ivE (utf8Encode P))⟩ now s).1 = .ok P := by
  have hct : ∀ b ∈ aesGcmEncrypt dekB ivE (utf8Encode P), b < 256 :=
    aesGcmEncrypt_lt hdek hivE (utf8Encode_lt P hP)
  rw [SecureVault.decrypt]
  simp only [hdekS]
  rw [b64Decode_b64Encode ivE hivE, b64Decode_b64Encode _ hct]
  simp only [aesGcmDecrypt_encrypt]
  rw [show utf8DecodeLossy (utf8Encode P) = P by
    rw [utf8DecodeLossy, utf8Decode_utf8Encode P hP]; rfl]

theorem vaultDecrypt_tamper_ct (v0 : Nat) (kdfX : KdfName) (saltF : List Nat)
    (dekB ivE : Bytes) (P : JSString) (now : Nat) (s : VaultState)
    (hdekS : s.dek = some dekB)
    (hP : ∀ c ∈ P, ValidChar c) (hdek : ∀ b ∈ dekB, b < 256)
    (hivE : ∀ b ∈ ivE, b < 256)
    (j t : Nat) (hj : j < (aesGcmEncrypt dekB ivE (utf8Encode P)).length)
    (ht : t < 256) (hne : t ≠ (aesGcmEncrypt dekB ivE (utf8Encode P)).get ⟨j, hj⟩) :
    (SecureVault.decrypt ⟨v0, kdfX, saltF, b64Encode ivE,
        b64Encode ((aesGcmEncrypt dekB ivE (utf8Encode P)).set j t)⟩ now s).1 =
      .error .rawError := by
  have hct : ∀ b ∈ aesGcmEncrypt dekB ivE (utf8Encode P), b < 256 :=
    aesGcmEncrypt_lt hdek hivE (utf8Encode_lt P hP)
  rw [SecureVault.decrypt]
  simp only [hdekS]
  rw [b64Decode_b64Encode ivE hivE, b64Decode_b64Encode _ (set_lt_of_lt hct ht)]
  simp only [aesGcmDecrypt_tamper dekB ivE (utf8Encode P) dekB ivE
    hdek hivE (utf8Encode_lt P hP) j t hj hne ht]

theorem vaultDecrypt_tamper_iv (v0 : Nat) (kdfX : KdfName) (saltF : List Nat)
    (dekB ivE : Bytes) (P : JSString) (now : Nat) (s : VaultState)
    (hdekS : s.dek = some dekB)
    (hP : ∀ c ∈ P, ValidChar c) (hdek : ∀ b ∈ dekB, b < 256)
    (hivE : ∀ b ∈ ivE, b < 256)
    (j t : Nat) (hj : j < ivE.length) (ht : t < 256) (hne : t ≠ ivE.get ⟨j, hj⟩) :
    (SecureVault.decrypt ⟨v0, kdfX, saltF, b64Encode (ivE.set j t),
        b64Encode (aesGcmEncrypt dekB ivE (utf8Encode P))⟩ now s).1 =
      .error .rawError := by
  have hct : ∀ b ∈ aesGcmEncrypt dekB ivE (utf8Encode P), b < 256 :=
    aesGcmEncrypt_lt hdek hivE (utf8Encode_lt P hP)
  rw [SecureVault.decrypt]
  simp only [hdekS]
  rw [b64Decode_b64Encode _ (set_lt_of_lt hivE ht), b64Decode_b64Encode _ hct]
  simp only [aesGcmDecrypt_wrong_key dekB ivE (utf8Encode P) dekB (ivE.set j t)
    (Or.inr (set_ne_of_get_ne hj hne))]

/-- **C5 (amended).** Flipping any single byte of the underlying ciphertext,
nonce, or salt of an `encryptString` blob makes `decryptString` fail — with
`INVALID_PASSPHRASE` (the `OperationError` mapping), not `DECRYPTION_FAILED`.
For a vault-sealed blob, flipping a byte of ciphertext or nonce makes
`SecureVault.decrypt` fail with a raw (untyped) rethrown error, while the
blob's `salt` field is ignored entirely by `SecureVault.decrypt`: any value
there still yields the original plaintext.  Decryption never silently
returns altered plaintext. -/
theorem tampered_blob_never_wrong_plaintext
    (kdf : KdfName) (pass P : JSString) (salt iv dekB ivE : Bytes) (now : Nat)
    (hpass : ∀ c ∈ pass, ValidChar c) (hP : ∀ c ∈ P, ValidChar c)
    (hsalt : ∀ b ∈ salt, b < 256) (hiv : ∀ b ∈ iv, b < 256)
    (hdek : ∀ b ∈ dekB, b < 256) (hivE : ∀ b ∈ ivE, b < 256) :
    (∀ j t, ∀ hj : j < (aesGcmEncrypt (deriveKey pass salt) iv (utf8Encode P)).length,
      t < 256 → t ≠ (aesGcmEncrypt (deriveKey pass salt) iv (utf8Encode P)).get ⟨j, hj⟩ →
      decryptString pass { encryptString kdf pass salt iv P with
          ct := b64Encode ((aesGcmEncrypt (deriveKey pass salt) iv (utf8Encode P)).set j t) } =
        .error .INVALID_PASSPHRASE) ∧
    (∀ j t, ∀ hj : j < iv.length, t < 256 → t ≠ iv.get ⟨j, hj⟩ →
      decryptString pass { encryptString kdf pass salt iv P with
          iv := b64Encode (iv.set j t) } = .error .INVALID_PASSPHRASE) ∧
    (∀ j t, ∀ hj : j < salt.length, t < 256 → t ≠ salt.get ⟨j, hj⟩ →
      decryptString pass { encryptString kdf pass salt iv P with
          salt := b64Encode (salt.set j t) } = .error .INVALID_PASSPHRASE) ∧
    (∀ j t, ∀ hj : j < (aesGcmEncrypt dekB ivE (utf8Encode P)).length,
      t < 256 → t ≠ (aesGcmEncrypt dekB ivE (utf8Encode P)).get ⟨j, hj⟩ →
      ∀ (v0 : Nat) (kdfX : KdfName) (saltF : List Nat) (s : VaultState), s.dek = some dekB →
        (SecureVault.decrypt ⟨v0, kdfX, saltF, b64Encode ivE,
            b64Encode ((aesGcmEncrypt dekB ivE (utf8Encode P)).set j t)⟩ now s).1 =
          .error .rawError) ∧
    (∀ j t, ∀ hj : j < ivE.length, t < 256 → t ≠ ivE.get ⟨j, hj⟩ →
      ∀ (v0 : Nat) (kdfX : KdfName) (saltF : List Nat) (s : VaultState), s.dek = some dekB →
        (SecureVault.decrypt ⟨v0, kdfX, saltF, b64Encode (ivE.set j t),
            b64Encode (aesGcmEncrypt dekB ivE (utf8Encode P))⟩ now s).1 =
          .error .rawError) ∧
    (∀ (v0 : Nat) (kdfX : KdfName) (saltF : List Nat) (s : VaultState), s.dek = some dekB →
      (SecureVault.decrypt ⟨v0, kdfX, saltF, b64Encode ivE,
          b64Encode (aesGcmEncrypt dekB ivE (utf8Encode P))⟩ now s).1 = .ok P) := by
  refine ⟨?_, ?_, ?_, ?_, ?_, ?_⟩
  · intro j t hj ht hne
    simp only [encryptString]
    exact decryptString_tamper_ct kdf pass P salt iv hpass hP hsalt hiv j t hj ht hne
  · intro j t hj ht hne
    simp only [encryptString]
    exact decryptString_tamper_iv kdf pass P salt iv hpass hP hsalt hiv j t hj ht hne
  · intro j t hj ht hne
    simp only [encryptString]
    exact decryptString_tamper_salt kdf pass P salt iv hpass hP hsalt hiv j t hj ht hne
  · intro j t hj ht hne v0 kdfX saltF s hdekS
    exact vaultDecrypt_tamper_ct v0 kdfX saltF dekB ivE P now s hdekS hP hdek hivE
      j t hj ht hne
  · intro j t hj ht hne v0 kdfX saltF s hdekS
    exact vaultDecrypt_tamper_iv v0 kdfX saltF dekB ivE P now s hdekS hP hdek hivE
      j t hj ht hne
  · intro v0 kdfX saltF s hdekS
    exact vaultDecrypt_ok v0 kdfX saltF dekB ivE P now s hdekS hP hdek hivE

/-- Counterexample to C5 as stated: tampering a produced blob (here: flipping
the first underlying nonce byte from 7 to 6) makes `decryptString` fail with
`INVALID_PASSPHRASE`, not the claimed `DECRYPTION_FAILED`. -/
theorem tampered_blob_error_is_invalid_passphrase :
    decryptString [112, 97, 115, 115, 119, 111, 114, 100]
        { encryptString .pbkdf2 [112, 97, 115, 115, 119, 111, 114, 100]
            [5, 6] [7, 8] [104, 105] with
          iv := b64Encode (([7, 8] : Bytes).set 0 6) } =
      .error .INVALID_PASSPHRASE ∧
    decryptString [112, 97, 115, 115, 119, 111, 114, 100]
        { encryptString .pbkdf2 [112, 97, 115, 115, 119, 111, 114, 100]
            [5, 6] [7, 8] [104, 105] with
          iv := b64Encode (([7, 8] : Bytes).set 0 6) } ≠
      .error .DECRYPTION_FAILED := by
  have h : decryptString [112, 97, 115, 115, 119, 111, 114, 100]
      { encryptString .pbkdf2 [112, 97, 115, 115, 119, 111, 114, 100]
          [5, 6] [7, 8] [104, 105] with
        iv := b64Encode (([7, 8] : Bytes).set 0 6) } =
      .error .INVALID_PASSPHRASE := by
    simp only [encryptString]
    exact decryptString_tamper_iv .pbkdf2 [112, 97, 115, 115, 119, 111, 114, 100]
      [104, 105] [5, 6] [7, 8] (by decide) (by decide) (by decide) (by decide)
      0 6 (by decide) (by decide) (by decide)
  exact ⟨h, by rw [h]; simp⟩

/-- Witness for the amended C5 at concrete passphrase, plaintext, randomness
and DEK. -/
theorem tampered_blob_never_wrong_plaintext_witness :
    (∀ j t, ∀ hj : j < (aesGcmEncrypt
          (deriveKey [112, 97, 115, 115, 119, 111, 114, 100] [5, 6]) [7, 8]
          (utf8Encode [104, 105])).length,
      t < 256 → t ≠ (aesGcmEncrypt
          (deriveKey [112, 97, 115, 115, 119, 111, 114, 100] [5, 6]) [7, 8]
          (utf8Encode [104, 105])).get ⟨j, hj⟩ →
      decryptString [112, 97, 115, 115, 119, 111, 114, 100]
          { encryptString .pbkdf2 [112, 97, 115, 115, 119, 111, 114, 100]
              [5, 6] [7, 8] [104, 105] with
            ct := b64Encode ((aesGcmEncrypt
              (deriveKey [112, 97, 115, 115, 119, 111, 114, 100] [5, 6]) [7, 8]
              (utf8Encode [104, 105])).set j t) } = .error .INVALID_PASSPHRASE) ∧
    (∀ j t, ∀ hj : j < ([7, 8] : Bytes).length, t < 256 → t ≠ ([7, 8] : Bytes).get ⟨j, hj⟩ →
      decryptString [112, 97, 115, 115, 119, 111, 114, 100]
          { encryptString .pbkdf2 [112, 97, 115, 115, 119, 111, 114, 100]
              [5, 6] [7, 8] [104, 105] with
            iv := b64Encode (([7, 8] : Bytes).set j t) } = .error .INVALID_PASSPHRASE) ∧
    (∀ j t, ∀ hj : j < ([5, 6] : Bytes).length, t < 256 → t ≠ ([5, 6] : Bytes).get ⟨j, hj⟩ →
      decryptString [112, 97, 115, 115, 119, 111, 114, 100]
          { encryptString .pbkdf2 [112, 97, 115, 115, 119, 111, 114, 100]
              [5, 6] [7, 8] [104, 105] with
            salt := b64Encode (([5, 6] : Bytes).set j t) } = .error .INVALID_PASSPHRASE) ∧
    (∀ j t, ∀ hj : j < (aesGcmEncrypt [1, 2, 3] [9, 10] (utf8Encode [104, 105])).length,
      t < 256 → t ≠ (aesGcmEncrypt [1, 2, 3] [9, 10] (utf8Encode [104, 105])).get ⟨j, hj⟩ →
      ∀ (v0 : Nat) (kdfX : KdfName) (saltF : List Nat) (s : VaultState),
        s.dek = some [1, 2, 3] →
        (SecureVault.decrypt ⟨v0, kdfX, saltF, b64Encode [9, 10],
            b64Encode ((aesGcmEncrypt [1, 2, 3] [9, 10] (utf8Encode [104, 105])).set j t)⟩
          0 s).1 = .error .rawError) ∧
    (∀ j t, ∀ hj : j < ([9, 10] : Bytes).length, t < 256 → t ≠ ([9, 10] : Bytes).get ⟨j, hj⟩ →
      ∀ (v0 : Nat) (kdfX : KdfName) (saltF : List Nat) (s : VaultState),
        s.dek = some [1, 2, 3] →
        (SecureVault.decrypt ⟨v0, kdfX, saltF, b64Encode (([9, 10] : Bytes).set j t),
            b64Encode (aesGcmEncrypt [1, 2, 3] [9, 10] (utf8Encode [104, 105]))⟩
          0 s).1 = .error .rawError) ∧
    (∀ (v0 : Nat) (kdfX : KdfName) (saltF : List Nat) (s : VaultState),
      s.dek = some [1, 2, 3] →
      (SecureVault.decrypt ⟨v0, kdfX, saltF, b64Encode [9, 10],
          b64Encode (aesGcmEncrypt [1, 2, 3] [9, 10] (utf8Encode [104, 105]))⟩
        0 s).1 = .ok [104, 105]) :=
  tampered_blob_never_wrong_plaintext .pbkdf2
    [112, 97, 115, 115, 119, 111, 114, 100] [104, 105] [5, 6] [7, 8] [1, 2, 3] [9, 10] 0
    (by decide) (by decide) (by decide) (by decide) (by decide) (by decide)

/-- **C6 (amended).** `decryptString` rejects every blob whose version is not
1 with `UNSUPPORTED_VERSION`; `SecureVault.decrypt`, however, performs no
version check at all — its behaviour is independent of the blob's `v` field. -/
theorem version_check_cipher_only :
    (∀ (pass : JSString) (blob : SecretBlobV1), blob.v ≠ 1 →
      decryptString pass blob = .error .UNSUPPORTED_VERSION) ∧
    (∀ (blob : SecretBlobV1) (v0 now : Nat) (s : VaultState),
      SecureVault.decrypt { blob with v := v0 } now s = SecureVault.decrypt blob now s) := by
  constructor
  · intro pass blob hv
    rw [decryptString, if_pos hv]
  · intro blob v0 now s
    rcases blob with ⟨v, kdfF, saltF, ivF, ctF⟩
    rfl

/-- Counterexample to C6 as stated: a blob with `v = 2` that is otherwise a
valid sealing under the in-memory DEK is decrypted successfully by
`SecureVault.decrypt` — it does not fail with `UNSUPPORTED_VERSION`. -/
theorem vault_decrypt_ignores_version :
    (SecureVault.decrypt ⟨2, .pbkdf2, [], b64Encode [9, 10],
        b64Encode (aesGcmEncrypt [1, 2, 3] [9, 10] (utf8Encode [104, 105]))⟩ 0
      { initialVault with dek := some [1, 2, 3] }).1 = .ok [104, 105] ∧
    (SecureVault.decrypt ⟨2, .pbkdf2, [], b64Encode [9, 10],
        b64Encode (aesGcmEncrypt [1, 2, 3] [9, 10] (utf8Encode [104, 105]))⟩ 0
      { initialVault with dek := some [1, 2, 3] }).1 ≠
      .error (.cryptoError .UNSUPPORTED_VERSION) := by
  have h := vaultDecrypt_ok 2 .pbkdf2 [] [1, 2, 3] [9, 10] [104, 105] 0
    { initialVault with dek := some [1, 2, 3] } rfl (by decide) (by decide) (by decide)
  exact ⟨h, by rw [h]; simp⟩

/-- Witness for the amended C6 at a concrete `v = 2` blob. -/
theorem version_check_cipher_only_witness :
    decryptString [112] ⟨2, .pbkdf2, [], [], []⟩ = .error .UNSUPPORTED_VERSION ∧
    SecureVault.decrypt { (⟨1, .pbkdf2, [], [65], [66]⟩ : SecretBlobV1) with v := 2 } 0
        initialVault =
      SecureVault.decrypt ⟨1, .pbkdf2, [], [65], [66]⟩ 0 initialVault :=
  ⟨version_check_cipher_only.1 [112] ⟨2, .pbkdf2, [], [], []⟩ (by decide),
    version_check_cipher_only.2 ⟨1, .pbkdf2, [], [65], [66]⟩ 2 0 initialVault⟩

/-- **C7 (amended).** Two `encryptString` calls with the same passphrase and
plaintext but distinct fresh randomness produce blobs differing in all of
salt, iv and ct.  Two `SecureVault.encrypt` calls with distinct fresh IVs
produce blobs differing in iv and ct — but with *identical* salt fields: the
vault copies the wrapped DEK's salt verbatim into every blob it produces. -/
theorem encrypt_nondeterminism
    (kdf : KdfName) (pass P : JSString) (salt1 salt2 iv1 iv2 : Bytes)
    (dekB ivE1 ivE2 : Bytes) (w : WrappedDEK) (now1 now2 : Nat) (s : VaultState)
    (hpass : ∀ c ∈ pass, ValidChar c) (hP : ∀ c ∈ P, ValidChar c)
    (hs1 : ∀ b ∈ salt1, b < 256) (hs2 : ∀ b ∈ salt2, b < 256)
    (hi1 : ∀ b ∈ iv1, b < 256) (hi2 : ∀ b ∈ iv2, b < 256)
    (hsne : salt1 ≠ salt2) (hine : iv1 ≠ iv2)
    (hdek : ∀ b ∈ dekB, b < 256)
    (hE1 : ∀ b ∈ ivE1, b < 256) (hE2 : ∀ b ∈ ivE2, b < 256)
    (hEne : ivE1 ≠ ivE2)
    (hdekS : s.dek = some dekB) (hwS : s.wrappedDEK = some w) :
    (encryptString kdf pass salt1 iv1 P).salt ≠ (encryptString kdf pass salt2 iv2 P).salt ∧
    (encryptString kdf pass salt1 iv1 P).iv ≠ (encryptString kdf pass salt2 iv2 P).iv ∧
    (encryptString kdf pass salt1 iv1 P).ct ≠ (encryptString kdf pass salt2 iv2 P).ct ∧
    (∀ b1 b2, (SecureVault.encrypt P ivE1 now1 s).1 = .ok b1 →
      (SecureVault.encrypt P ivE2 now2 s).1 = .ok b2 →
      b1.salt = b2.salt ∧ b1.iv ≠ b2.iv ∧ b1.ct ≠ b2.ct) := by
  have hkek1 : ∀ b ∈ deriveKey pass salt1, b < 256 := deriveKey_lt hpass hs1
  have hkek2 : ∀ b ∈ deriveKey pass salt2, b < 256 := deriveKey_lt hpass hs2
  have hctb1 : ∀ b ∈ aesGcmEncrypt (deriveKey pass salt1) iv1 (utf8Encode P), b < 256 :=
    aesGcmEncrypt_lt hkek1 hi1 (utf8Encode_lt P hP)
  have hctb2 : ∀ b ∈ aesGcmEncrypt (deriveKey pass salt2) iv2 (utf8Encode P), b < 256 :=
    aesGcmEncrypt_lt hkek2 hi2 (utf8Encode_lt P hP)
  refine ⟨?_, ?_, ?_, ?_⟩
  · simp only [encryptString]
    intro h
    exact hsne (b64Encode_inj hs1 hs2 h)
  · simp only [encryptString]
    intro h
    exact hine (b64Encode_inj hi1 hi2 h)
  · simp only [encryptString]
    intro h
    exact hine (aesGcmEncrypt_inj (b64Encode_inj hctb1 hctb2 h)).2.1
  · intro b1 b2 h1 h2
    have he1 : (SecureVault.encrypt P ivE1 now1 s).1 =
        .ok ⟨1, w.kdf, w.salt, b64Encode ivE1,
          b64Encode (aesGcmEncrypt dekB ivE1 (utf8Encode P))⟩ := by
      rw [SecureVault.encrypt]
      simp only [hdekS, hwS]
    have he2 : (SecureVault.encrypt P ivE2 now2 s).1 =
        .ok ⟨1, w.kdf, w.salt, b64Encode ivE2,
          b64Encode (aesGcmEncrypt dekB ivE2 (utf8Encode P))⟩ := by
      rw [SecureVault.encrypt]
      simp only [hdekS, hwS]
    rw [he1] at h1
    rw [he2] at h2
    simp only [Except.ok.injEq] at h1 h2
    subst h1
    subst h2
    have hctv1 : ∀ b ∈ aesGcmEncrypt dekB ivE1 (utf8Encode P), b < 256 :=
      aesGcmEncrypt_lt hdek hE1 (utf8Encode_lt P hP)
    have hctv2 : ∀ b ∈ aesGcmEncrypt dekB ivE2 (utf8Encode P), b < 256 :=
      aesGcmEncrypt_lt hdek hE2 (utf8Encode_lt P hP)
    refine ⟨rfl, ?_, ?_⟩
    · intro h
      exact hEne (b64Encode_inj hE1 hE2 h)
    · intro h
      exact hEne (aesGcmEncrypt_inj (b64Encode_inj hctv1 hctv2 h)).2.1

/-- Counterexample to C7 as stated: two successful `SecureVault.encrypt`
calls on the same unlocked vault, with different fresh IVs, produce blobs
whose `salt` fields are identical (both copied from the wrapped DEK). -/
theorem vault_encrypt_identical_salt :
    (SecureVault.encrypt [104] [9, 10] 0
        { initialVault with
          dek := some [1, 2, 3],
          wrappedDEK := some ⟨1, .pbkdf2, [65, 66], [67], [68]⟩ }).1.map SecretBlobV1.salt =
      (SecureVault.encrypt [104] [11, 12] 1
        { initialVault with
          dek := some [1, 2, 3],
          wrappedDEK := some ⟨1, .pbkdf2, [65, 66], [67], [68]⟩ }).1.map SecretBlobV1.salt ∧
    (SecureVault.encrypt [104] [9, 10] 0
        { initialVault with
          dek := some [1, 2, 3],
          wrappedDEK := some ⟨1, .pbkdf2, [65, 66], [67], [68]⟩ }).1.isOk = true ∧
    (SecureVault.encrypt [104] [11, 12] 1
        { initialVault with
          dek := some [1, 2, 3],
          wrappedDEK := some ⟨1, .pbkdf2, [65, 66], [67], [68]⟩ }).1.isOk = true ∧
    ([9, 10] : Bytes) ≠ [11, 12] := by
  refine ⟨rfl, rfl, rfl, by decide⟩

/-- Witness for the amended C7 at concrete randomness and state. -/
theorem encrypt_nondeterminism_witness :
    (encryptString .pbkdf2 [112, 97, 115, 115, 119, 111, 114, 100] [5, 6] [7, 8] [104]).salt ≠
      (encryptString .pbkdf2 [112, 97, 115, 115, 119, 111, 114, 100] [5, 7] [7, 9] [104]).salt ∧
    (encryptString .pbkdf2 [112, 97, 115, 115, 119, 111, 114, 100] [5, 6] [7, 8] [104]).iv ≠
      (encryptString .pbkdf2 [112, 97, 115, 115, 119, 111, 114, 100] [5, 7] [7, 9] [104]).iv ∧
    (encryptString .pbkdf2 [112, 97, 115, 115, 119, 111, 114, 100] [5, 6] [7, 8] [104]).ct ≠
      (encryptString .pbkdf2 [112, 97, 115, 115, 119, 111, 114, 100] [5, 7] [7, 9] [104]).ct ∧
    (∀ b1 b2, (SecureVault.encrypt [104] [9, 10] 0
        { initialVault with
          dek := some [1, 2, 3],
          wrappedDEK := some ⟨1, .pbkdf2, [65, 66], [67], [68]⟩ }).1 = .ok b1 →
      (SecureVault.encrypt [104] [11, 12] 1
        { initialVault with
          dek := some [1, 2, 3],
          wrappedDEK := some ⟨1, .pbkdf2, [65, 66], [67], [68]⟩ }).1 = .ok b2 →
      b1.salt = b2.salt ∧ b1.iv ≠ b2.iv ∧ b1.ct ≠ b2.ct) :=
  encrypt_nondeterminism .pbkdf2 [112, 97, 115, 115, 119, 111, 114, 100] [104]
    [5, 6] [5, 7] [7, 8] [7, 9] [1, 2, 3] [9, 10] [11, 12]
    ⟨1, .pbkdf2, [65, 66], [67], [68]⟩ 0 1
    { initialVault with
      dek := some [1, 2, 3],
      wrappedDEK := some ⟨1, .pbkdf2, [65, 66], [67], [68]⟩ }
    (by decide) (by decide) (by decide) (by decide) (by decide) (by decide)
    (by decide) (by decide) (by decide) (by decide) (by decide) (by decide)
    rfl rfl

/-- **C8 (amended).** When the auto-lock timer fires on an unlocked vault,
registered listeners are notified of *two* events for the single
`Unlocked -> Locked` transition: `locked` (emitted by the `lock()` call
inside the timer callback) followed by `auto-locked`.  A manual `lock()` on
an unlocked vault emits exactly `locked`, and firing the timer callback on an
already-locked vault emits only `auto-locked`. -/
theorem autoLock_fires_two_events (s : VaultState) (h : s.dek.isSome) :
    (SecureVault.autoLockFire s).2 = [.locked, .autoLocked] ∧
    (SecureVault.autoLockFire s).1 =
      { s with dek := none, autoLockTimer := false, lastActivity := none } ∧
    (SecureVault.lock s).2 = [.locked] ∧
    ∀ s2 : VaultState, s2.dek = none → (SecureVault.autoLockFire s2).2 = [.autoLocked] := by
  rcases hd : s.dek with - | d
  · rw [hd] at h; simp at h
  · refine ⟨?_, ?_, ?_, ?_⟩
    · simp [SecureVault.autoLockFire, SecureVault.lock, hd]
    · simp [SecureVault.autoLockFire, SecureVault.lock, hd]
    · simp [SecureVault.lock, hd]
    · intro s2 h2
      simp [SecureVault.autoLockFire, SecureVault.lock, h2]

/-- Counterexample to C8 as stated: on a concrete unlocked vault the timer
callback notifies listeners of two events — `locked` and then `auto-locked` —
not of the single event `auto-locked`. -/
theorem autoLock_not_single_event :
    (SecureVault.autoLockFire
        { initialVault with dek := some [1, 2, 3] }).2 = [.locked, .autoLocked] ∧
    (SecureVault.autoLockFire
        { initialVault with dek := some [1, 2, 3] }).2 ≠ [.autoLocked] := by
  refine ⟨rfl, by decide⟩

/-- Witness for the amended C8 at a concrete unlocked vault. -/
theorem autoLock_fires_two_events_witness :
    (SecureVault.autoLockFire { initialVault with dek := some [9] }).2 =
        [.locked, .autoLocked] ∧
    (SecureVault.autoLockFire { initialVault with dek := some [9] }).1 =
      { { initialVault with dek := some [9] } with
          dek := none, autoLockTimer := false, lastActivity := none } ∧
    (SecureVault.lock { initialVault with dek := some [9] }).2 = [.locked] ∧
    ∀ s2 : VaultState, s2.dek = none → (SecureVault.autoLockFire s2).2 = [.autoLocked] :=
  autoLock_fires_two_events { initialVault with dek := some [9] } rfl

/-! ## VaultStorage / VaultManager (`getVaultConfig`, `isFirstTimeUser`) -/

/-- Shape checks `getVaultConfig` performs on the stored `wrapped_dek` JSON
value: a `placeholder` marker, the version, and truthiness of the four
required fields. -/
structure RawWrappedDek where
  placeholder : Bool
  v : Nat
  hasKdf : Bool
  hasSalt : Bool
  hasIv : Bool
  hasCt : Bool
deriving DecidableEq, Repr

/-- Outcome of the `vault_config` database query: a row (with or without a
`wrapped_dek` value), no rows (`PGRST116`), a database error, or a thrown
network/fetch error. -/
inductive DbQueryResult
  | row (wrappedDek : Option RawWrappedDek)
  | noRows
  | dbError
  | networkError
deriving DecidableEq, Repr

/-- Model of `getVaultConfig`: returns the validated wrapped-DEK value or
`null`.  `PGRST116` returns `null`; any other database error is thrown and
then caught by the function's own catch-block, which returns `null` both for
network errors and for every other error — `getVaultConfig` never propagates
a failure. -/
def getVaultConfig (r : DbQueryResult) : Option RawWrappedDek :=
  match r with
  | .row (some wd) =>
    if wd.placeholder then none
    else if wd.v = 1 ∧ wd.hasKdf ∧ wd.hasSalt ∧ wd.hasIv ∧ wd.hasCt then some wd
    else none
  | .row none => none
  | .noRows => none
  | .dbError => none
  | .networkError => none

/-- Model of `isVaultInitialized`: config present, errors swallowed to
`false`. -/
def isVaultInitialized (r : DbQueryResult) : Bool :=
  (getVaultConfig r).isSome

/-- Model of `VaultManager.isFirstTimeUser`: negation of
`isVaultInitialized`; its catch-block returns `true` on any error. -/
def isFirstTimeUser (r : DbQueryResult) : Bool :=
  !(isVaultInitialized r)

/-- **C9 (amended).** `isFirstTimeUser` returns `true` iff no valid
wrapped-DEK record is obtained from storage — and storage/network errors are
swallowed at every layer (`getVaultConfig` catches and returns `null`,
`isVaultInitialized` maps errors to `false`, `isFirstTimeUser`'s own catch
returns `true`), so on a database or network error the call returns `true`:
errors are silently interpreted as "first-time user", not reported. -/
theorem isFirstTimeUser_swallows_errors :
    (∀ r : DbQueryResult, isFirstTimeUser r = !(getVaultConfig r).isSome) ∧
    isFirstTimeUser .dbError = true ∧
    isFirstTimeUser .networkError = true := by
  exact ⟨fun r => rfl, rfl, rfl⟩

/-- Counterexample to C9 as stated: on a database error, `isFirstTimeUser`
returns `true` — the error is interpreted as "first-time user" instead of
being reported as "cannot determine". -/
theorem isFirstTimeUser_true_on_error :
    isFirstTimeUser .dbError = true ∧ isFirstTimeUser .networkError = true :=
  ⟨rfl, rfl⟩
